import Mathlib

/-!
The agent-autoscale polling cycle, stats collector and dispatcher.

A shallow embedding of `docker.go` (`watchStats`, `watchServices`) and
`request.go` (`sendStats`).

* Go strings are Lean strings; `strings.Split` and `strings.ReplaceAll` are
  defined on the character list. The separators and the percent sign are
  ASCII, so working by character agrees with Go working by byte on UTF-8 text.
* The standard-library calls whose results the code only inspects
  (`strconv.ParseFloat`, `strconv.ParseInt`, `json.Unmarshal`) are the fields of
  `Lib`; `float64` is the type parameter `F`.
* The external world (the `docker stats` command, the service list, the HTTP
  round trip) is passed in as data.
* The goroutines that `watchServices` starts run concurrently with its loop. A
  panic in one of them ends the process; when that happens is given by a
  schedule, at the grain of loop iterations.
-/

namespace AgentAutoscale

/-! ## Strings -/

/-- Pieces of a character list between occurrences of `sep`; never empty. -/
def splitChars (sep : Char) : List Char → List (List Char)
  | [] => [[]]
  | c :: cs =>
    if c = sep then [] :: splitChars sep cs
    else
      match splitChars sep cs with
      | [] => [[c]]
      | h :: t => (c :: h) :: t

/-- Go `strings.Split(s, sep)` for a one-character separator. -/
def Split (s : String) (sep : Char) : List String :=
  (splitChars sep s.data).map String.mk

/-- Go `strings.ReplaceAll(s, old, new)` for a one-character `old`. -/
def ReplaceAll (s : String) (old : Char) (new : String) : String :=
  String.mk (s.data.flatMap fun c => if c = old then new.data else [c])

/-- Go `strings.Split(name, ".")[0]`: the first piece of the split. -/
def firstSegment (name : String) : String :=
  match Split name '.' with
  | [] => ""
  | seg :: _ => seg

/-- Go `strings.TrimSuffix(s, "%")`: one trailing percent sign removed, when there is one. -/
def TrimSuffixPercent (s : String) : String :=
  if s.data.getLast? = some '%' then String.mk s.data.dropLast else s

/-! ## Data model (`docker.go`, `request.go`) -/

/-- Go `MemoryStats`. -/
structure MemoryStats where
  Raw : String
  Percent : String
  deriving DecidableEq, Repr

/-- Go `IOStats`. -/
structure IOStats where
  Network : String
  Block : String
  deriving DecidableEq, Repr

/-- Go `Stats`: one record of the stats source (`Io` is the field `IO`). -/
structure Stats where
  Container : String
  Name : String
  Memory : MemoryStats
  CPU : String
  Io : IOStats
  PIDs : Int
  deriving DecidableEq, Repr

/-- Go `CurrentStats`. -/
structure CurrentStats (F : Type) where
  CPUPercentage : F
  MemoryPercentage : F
  Replicas : Int
  deriving DecidableEq, Repr

/-- Go `BasedStats`. -/
structure BasedStats (F : Type) where
  CPUPercentage : F
  MemoryPercentage : F
  Min : Int
  Max : Int
  deriving DecidableEq, Repr

/-- Go `Container`: the payload handed to `sendStats`. -/
structure Container (F : Type) where
  ServiceID : String
  ServiceName : String
  Current : CurrentStats F
  Based : BasedStats F
  deriving DecidableEq, Repr

/-- The field of `swarm.ServiceStatus` that `watchServices` reads. -/
structure ServiceStatus where
  RunningTasks : Nat
  deriving DecidableEq, Repr

/-- The fields of `swarm.Service` that `watchServices` reads. `ServiceStatus`
is `none` when that pointer is nil; `Replicas` is `none` when
`Spec.Mode.Replicated` or its `Replicas` pointer is nil. -/
structure Service where
  ID : String
  Name : String
  Labels : List (String × String)
  ServiceStatus : Option ServiceStatus
  Replicas : Option Nat
  deriving DecidableEq, Repr

/-- The library calls of the program, as an interface. -/
structure Lib (F : Type) where
  /-- The zero value of `float64`. -/
  zero : F
  /-- Go `strconv.ParseFloat(s, 64)`. -/
  ParseFloat : String → Except String F
  /-- Go `strconv.ParseInt(s, 10, 64)`. -/
  ParseInt : String → Except String Int
  /-- Go `json.Unmarshal([]byte(line), &s)` on a fresh `Stats`. -/
  Unmarshal : String → Except String Stats

/-! ## The stats map -/

/-- Go `map[string]Stats`, as a list of entries. -/
abbrev StatsMap := List (String × Stats)

/-- Go `stats[name] = s`: the entry under `name` is replaced. -/
def StatsMap.set (m : StatsMap) (name : String) (s : Stats) : StatsMap :=
  (name, s) :: m.filter fun e => e.1 != name

/-- Go `stats, ok := mapStats[name]`. -/
def StatsMap.get (m : StatsMap) (name : String) : Option Stats :=
  match m with
  | [] => none
  | (k, v) :: rest => if k = name then some v else StatsMap.get rest name

/-- Number of entries stored under `name`. -/
def StatsMap.entries (m : StatsMap) (name : String) : Nat :=
  (m.filter fun e => e.1 == name).length

/-! ## `watchStats` -/

/-- The loop of `watchStats` over the lines of the command output. -/
def watchStatsLoop {F : Type} (L : Lib F) : List String → StatsMap → Except String StatsMap
  | [], stats => .ok stats
  | con :: rest, stats =>
    if con.length = 0 then watchStatsLoop L rest stats
    else
      match L.Unmarshal con with
      | .error e => .error e
      | .ok s => watchStatsLoop L rest (stats.set (firstSegment s.Name) s)

/-- Go `watchStats`; `out` is the result of running the `docker stats` command. -/
def watchStats {F : Type} (L : Lib F) (out : Except String String) : Except String StatsMap :=
  match out with
  | .error e => .error e
  | .ok o => watchStatsLoop L (Split o '\n') []

/-! ## `sendStats` -/

/-- The fields of `http.Response` that `sendStats` reads; `Body` is the result
of `io.ReadAll(resp.Body)`. -/
structure Response where
  StatusCode : Int
  Status : String
  Body : Except String String

/-- The calls `sendStats` makes. -/
structure Net (F : Type) where
  /-- Go `json.Marshal(container)`. -/
  Marshal : Container F → Except String String
  /-- Go `http.NewRequest(http.MethodPost, basedurl, body)`; the request is its body. -/
  NewRequest : String → Except String String
  /-- Go `client.Do(req)`. -/
  Do : String → Except String Response

/-- How a call of `sendStats` ends. -/
inductive SendResult where
  /-- It returns `nil`. -/
  | nil
  /-- It returns an error. -/
  | err (e : String)
  /-- It panics on the body read. -/
  | panic (e : String)
  deriving DecidableEq, Repr

/-- Go `http.StatusOK`. -/
def StatusOK : Int := 200
/-- Go `http.StatusMultiStatus`. -/
def StatusMultiStatus : Int := 207

/-- Go `sendStats`. -/
def sendStats {F : Type} (N : Net F) (container : Container F) : SendResult :=
  match N.Marshal container with
  | .error e => .err e
  | .ok jsonData =>
    match N.NewRequest jsonData with
    | .error e => .err e
    | .ok req =>
      match N.Do req with
      | .error e => .err e
      | .ok resp =>
        if resp.StatusCode ≥ StatusOK ∧ resp.StatusCode < StatusMultiStatus then .nil
        else
          match resp.Body with
          | .error e => .panic e
          | .ok body => .err ("unable to send stats*(" ++ resp.Status ++ "): " ++ body)

/-! ## `watchServices` -/

/-- Go `labelAutoScaleMin`. -/
def labelAutoScaleMin : String := "swarm.autoscale.min"
/-- Go `labelAutoScaleMax`. -/
def labelAutoScaleMax : String := "swarm.autoscale.max"
/-- Go `labelAutoScaleCPU`. -/
def labelAutoScaleCPU : String := "swarm.autoscale.cpu"
/-- Go `labelAutoScaleMem`. -/
def labelAutoScaleMem : String := "swarm.autoscale.mem"

/-- Go `v, ok := labels[key]` on a label map given as a list of bindings. -/
def lookupLabel (labels : List (String × String)) (key : String) : Option String :=
  match labels with
  | [] => none
  | (k, v) :: rest => if k = key then some v else lookupLabel rest key

/-- Go `service.Spec.Labels[key]`: the empty string when the key is absent. -/
def getLabel (labels : List (String × String)) (key : String) : String :=
  match lookupLabel labels key with
  | none => ""
  | some v => v

/-- Go `int(x)` for `x uint64` on a 64-bit platform. -/
def intOfUint64 (x : Nat) : Int :=
  if x % 2 ^ 64 < 2 ^ 63 then ((x % 2 ^ 64 : Nat) : Int) else ((x % 2 ^ 64 : Nat) : Int) - 2 ^ 64

/-- Lines 110-152 of `watchServices`: the four policy labels, each parsed when
non-empty; the first failure gives the logged message and the error. -/
def basedStats {F : Type} (L : Lib F) (labels : List (String × String)) :
    Except (String × String) (BasedStats F) :=
  let basedCPUPercent := getLabel labels labelAutoScaleCPU
  let basedMemPercent := getLabel labels labelAutoScaleMem
  let minContainer := getLabel labels labelAutoScaleMin
  let maxContainer := getLabel labels labelAutoScaleMax
  match (if basedCPUPercent ≠ "" then L.ParseFloat basedCPUPercent else .ok L.zero) with
  | .error e => .error ("parse based cpu percentage", e)
  | .ok basedCPU =>
    match (if basedMemPercent ≠ "" then L.ParseFloat basedMemPercent else .ok L.zero) with
    | .error e => .error ("parse based memory percentage", e)
    | .ok basedMem =>
      match (if minContainer ≠ "" then L.ParseInt minContainer else .ok 0) with
      | .error e => .error ("parse min container service", e)
      | .ok minContainerService =>
        match (if maxContainer ≠ "" then L.ParseInt maxContainer else .ok 0) with
        | .error e => .error ("parse max container service", e)
        | .ok maxContainerService =>
          .ok { CPUPercentage := basedCPU, MemoryPercentage := basedMem,
                Min := minContainerService, Max := maxContainerService }

/-- What one iteration of the loop of `watchServices` does with its service. -/
inductive Outcome (F : Type) where
  /-- Line 80: nil pointer dereference on `service.ServiceStatus`. -/
  | nilStatus
  /-- Line 81: `log.Warn`, then `continue`. -/
  | warn (msg : String)
  /-- Line 87: `watchStats` failed, `watchServices` returns the error. -/
  | returned (err : String)
  /-- Line 92: no entry under the service name, `continue`. -/
  | noStats
  /-- A `log.Error(msg, err)` followed by `continue`. -/
  | logError (msg : String) (err : String)
  /-- Line 160: nil pointer dereference on the replica count. -/
  | nilDeref
  /-- Lines 170-175: a goroutine calling `sendStats` on the container is
  started; `r` is how that call ends (an error is logged, a panic ends the
  process). -/
  | dispatched (c : Container F) (r : SendResult)
  deriving DecidableEq, Repr

/-- The iteration itself stops the loop (a `return` or a runtime fault). -/
def Outcome.halts {F : Type} : Outcome F → Bool
  | .nilStatus => true
  | .returned _ => true
  | .nilDeref => true
  | _ => false

/-- The container the iteration dispatched, when it did. -/
def Outcome.signal {F : Type} : Outcome F → Option (Container F)
  | .dispatched c _ => some c
  | _ => none

/-- The iteration started a goroutine whose `sendStats` call panics. -/
def Outcome.panics {F : Type} : Outcome F → Bool
  | .dispatched _ (.panic _) => true
  | _ => false

/-- How a call of `watchServices` ends. -/
inductive Return where
  /-- The function returns `nil`. -/
  | nil
  /-- The function returns an error. -/
  | err (e : String)
  /-- The function does not return: the process ends on a runtime fault. -/
  | fault
  deriving DecidableEq, Repr

/-- How `watchServices` ends when the iteration with this outcome stops the loop. -/
def Outcome.ret {F : Type} : Outcome F → Return
  | .returned e => .err e
  | .nilStatus => .fault
  | .nilDeref => .fault
  | _ => .nil

/-- Lines 90-175 of `watchServices`: what the loop body does once `watchStats`
has returned `mapStats`. The `log.Info` of line 94 is not recorded. -/
def correlate {F : Type} (L : Lib F) (N : Net F) (mapStats : StatsMap) (service : Service) :
    Outcome F :=
  match mapStats.get service.Name with
  | none => .noStats
  | some stats =>
    match L.ParseFloat (ReplaceAll stats.CPU '%' "") with
    | .error e => .logError "parse cpu percentage" e
    | .ok cpuPercent =>
      match L.ParseFloat (ReplaceAll stats.Memory.Percent '%' "") with
      | .error e => .logError "parse memory percentage" e
      | .ok memPercent =>
        match basedStats L service.Labels with
        | .error (msg, e) => .logError msg e
        | .ok based =>
          match service.Replicas with
          | none => .nilDeref
          | some replicas =>
            .dispatched
              { ServiceID := service.ID, ServiceName := service.Name,
                Current := { CPUPercentage := cpuPercent, MemoryPercentage := memPercent,
                             Replicas := intOfUint64 replicas },
                Based := based }
              (sendStats N
                { ServiceID := service.ID, ServiceName := service.Name,
                  Current := { CPUPercentage := cpuPercent, MemoryPercentage := memPercent,
                               Replicas := intOfUint64 replicas },
                  Based := based })

/-- The loop body of `watchServices` (lines 80-175). `exec n` is the result of
the `docker stats` command at its `n`-th invocation of the cycle; the second
component is the number of invocations made so far. -/
def loopBody {F : Type} (L : Lib F) (N : Net F) (exec : Nat → Except String String) (n : Nat)
    (service : Service) : Outcome F × Nat :=
  match service.ServiceStatus with
  | none => (.nilStatus, n)
  | some status =>
    if status.RunningTasks = 0 then
      (.warn ("service " ++ service.Name ++ " has no running tasks"), n)
    else
      match watchStats L (exec n) with
      | .error e => (.returned e, n + 1)
      | .ok mapStats => (correlate L N mapStats service, n + 1)

/-- The observable result of one cycle: one outcome per service visited, the
number of collector invocations, whether a goroutine panic is in flight at the
end, and how the call ends. -/
structure Cycle (F : Type) where
  outcomes : List (Outcome F)
  calls : Nat
  pending : Bool
  ret : Return

/-- The `for` loop of `watchServices`, from iteration `i` on, after `n`
collector invocations. `pending` tells that a goroutine started earlier has a
panic in flight; `strikes i` tells whether a panic in flight ends the process
once iteration `i` is done. -/
def watchLoop {F : Type} (L : Lib F) (N : Net F) (strikes : Nat → Bool)
    (exec : Nat → Except String String) : List Service → Nat → Nat → Bool → Cycle F
  | [], _, n, pending => { outcomes := [], calls := n, pending := pending, ret := .nil }
  | service :: rest, i, n, pending =>
    let r := loopBody L N exec n service
    if r.1.halts then
      { outcomes := [r.1], calls := r.2, pending := pending, ret := r.1.ret }
    else if (pending || r.1.panics) && strikes i then
      { outcomes := [r.1], calls := r.2, pending := true, ret := .fault }
    else
      { outcomes := r.1 :: (watchLoop L N strikes exec rest (i + 1) r.2
          (pending || r.1.panics)).outcomes,
        calls := (watchLoop L N strikes exec rest (i + 1) r.2 (pending || r.1.panics)).calls,
        pending := (watchLoop L N strikes exec rest (i + 1) r.2 (pending || r.1.panics)).pending,
        ret := (watchLoop L N strikes exec rest (i + 1) r.2 (pending || r.1.panics)).ret }

/-- Go `watchServices`; `services` is the result of `cli.ServiceList`. -/
def watchServices {F : Type} (L : Lib F) (N : Net F) (strikes : Nat → Bool)
    (services : Except String (List Service)) (exec : Nat → Except String String) : Cycle F :=
  match services with
  | .error e => { outcomes := [], calls := 0, pending := false, ret := .err e }
  | .ok svcs => watchLoop L N strikes exec svcs 0 0 false

/-- The containers dispatched in a cycle, in order. -/
def Cycle.signals {F : Type} (c : Cycle F) : List (Container F) :=
  c.outcomes.filterMap Outcome.signal

/-! ## A concrete library

Decimal numerals and the record line printed by the format string of
`watchStats`, enough to run the definitions above on examples. On the inputs it
accepts it returns what the Go library returns (a `float64` being read as the
decimal it was written as). -/

/-- A decimal number `mant / 10 ^ scale`. -/
structure Dec where
  mant : Int
  scale : Nat
  deriving DecidableEq, Repr

/-- Value of a decimal digit. -/
def digitValue (c : Char) : Option Nat :=
  if 48 ≤ c.toNat ∧ c.toNat ≤ 57 then some (c.toNat - 48) else none

/-- Value of a run of decimal digits, continuing from `acc`. -/
def digitsValue : List Char → Nat → Option Nat
  | [], acc => some acc
  | c :: cs, acc =>
    match digitValue c with
    | none => none
    | some d => digitsValue cs (acc * 10 + d)

/-- Value of a non-empty run of decimal digits. -/
def natOfDigits (cs : List Char) : Option Nat :=
  match cs with
  | [] => none
  | _ :: _ => digitsValue cs 0

/-- An optional leading sign: whether it is a minus, and the rest. -/
def signOf : List Char → Bool × List Char
  | '-' :: r => (true, r)
  | '+' :: r => (false, r)
  | cs => (false, cs)

/-- Base-10 `strconv.ParseInt(s, 10, 64)`: a sign, digits, and the int64 range. -/
def decimalParseInt (s : String) : Except String Int :=
  match natOfDigits (signOf s.data).2 with
  | none => .error "invalid syntax"
  | some n =>
    let v : Int := if (signOf s.data).1 then -(n : Int) else (n : Int)
    if -(2 : Int) ^ 63 ≤ v ∧ v < (2 : Int) ^ 63 then .ok v else .error "value out of range"

/-- The numerals `[+-]digits[.digits]` of `strconv.ParseFloat`, read exactly. -/
def decimalParseFloat (s : String) : Except String Dec :=
  let r := (signOf s.data).2
  let ip := r.takeWhile fun c => c != '.'
  let fp := (r.dropWhile fun c => c != '.').drop 1
  match natOfDigits (ip ++ fp) with
  | none => .error "invalid syntax"
  | some n => .ok { mant := if (signOf s.data).1 then -(n : Int) else (n : Int), scale := fp.length }

/-- Removes the characters of `pre` from the front of the input, when they are there. -/
def dropLeading : List Char → List Char → Option (List Char)
  | [], cs => some cs
  | _ :: _, [] => none
  | p :: ps, c :: cs => if p = c then dropLeading ps cs else none

/-- After the text `key`, the characters up to the next double quote (none of
them a backslash), and what follows that quote. -/
def quotedAfter (key : String) (cs : List Char) : Option (String × List Char) :=
  match dropLeading key.data cs with
  | none => none
  | some r =>
    match r.dropWhile fun c => c != '"' with
    | [] => none
    | _ :: rest =>
      if '\\' ∈ r.takeWhile fun c => c != '"' then none
      else some (String.mk (r.takeWhile fun c => c != '"'), rest)

/-- Decoder of the line that the format string of `watchStats` (line 184) prints. -/
def templateUnmarshal (line : String) : Except String Stats :=
  let r : Option Stats := do
    let (container, r1) ← quotedAfter "\x7b\"container\":\"" line.data
    let (name, r2) ← quotedAfter ",\"name\":\"" r1
    let (raw, r3) ← quotedAfter ",\"memory\":\x7b\"raw\":\"" r2
    let (percent, r4) ← quotedAfter ",\"percent\":\"" r3
    let (cpu, r5) ← quotedAfter "\x7d,\"cpu\":\"" r4
    let (network, r6) ← quotedAfter ",\"io\":\x7b\"network\":\"" r5
    let (block, r7) ← quotedAfter ",\"block\":\"" r6
    let r8 ← dropLeading "\x7d,\"pids\":".data r7
    let pids ← natOfDigits (r8.takeWhile fun c => c != '\x7d')
    if (r8.dropWhile fun c => c != '\x7d') = ['\x7d'] then
      some { Container := container, Name := name, Memory := { Raw := raw, Percent := percent },
             CPU := cpu, Io := { Network := network, Block := block }, PIDs := (pids : Int) }
    else none
  match r with
  | none => .error "invalid character"
  | some s => .ok s

/-- The concrete library. -/
def decimalLib : Lib Dec where
  zero := { mant := 0, scale := 0 }
  ParseFloat := decimalParseFloat
  ParseInt := decimalParseInt
  Unmarshal := templateUnmarshal

/-- The line the stats command prints for a container. -/
def statsLine (container name raw percent cpu network block pids : String) : String :=
  "\x7b\"container\":\"" ++ container ++ "\",\"name\":\"" ++ name ++
  "\",\"memory\":\x7b\"raw\":\"" ++ raw ++ "\",\"percent\":\"" ++ percent ++
  "\"\x7d,\"cpu\":\"" ++ cpu ++ "\",\"io\":\x7b\"network\":\"" ++ network ++
  "\",\"block\":\"" ++ block ++ "\"\x7d,\"pids\":" ++ pids ++ "\x7d"

/-- The well-formed records among the lines, in output order. -/
def recordsOf {F : Type} (L : Lib F) (lines : List String) : List Stats :=
  lines.filterMap fun line =>
    if line.length = 0 then none
    else
      match L.Unmarshal line with
      | .ok s => some s
      | .error _ => none

/-- The records of a command output, in output order. -/
def records {F : Type} (L : Lib F) (out : String) : List Stats :=
  recordsOf L (Split out '\n')

/-- The last record, in output order, whose derived short name is `k`. -/
def lastRecord {F : Type} (L : Lib F) (out : String) (k : String) : Option Stats :=
  ((records L out).filter fun s => firstSegment s.Name = k).getLast?

/-- The map after storing the records `recs` one after the other. -/
def storeAll (recs : List Stats) (m : StatsMap) : StatsMap :=
  recs.foldl (fun acc s => acc.set (firstSegment s.Name) s) m

deriving instance DecidableEq for Except

/-- The line decodes: `json.Unmarshal` returns no error on it. -/
def wellFormed {F : Type} (L : Lib F) (line : String) : Bool :=
  match L.Unmarshal line with
  | .ok _ => true
  | .error _ => false

/-! ## Vocabulary of the statements -/

/-- A policy label as the specification reads it: `v` is `zero` when the key
is absent, and the parse of its text when the key holds a non-empty text that
the parser accepts. -/
def labelParsesTo {α : Type} (parse : String → Except String α) (zero : α)
    (labels : List (String × String)) (key : String) (v : α) : Prop :=
  (lookupLabel labels key = none ∧ v = zero) ∨
  (∃ s, lookupLabel labels key = some s ∧ s ≠ "" ∧ parse s = .ok v)

/-- The logged message `msg` with error `e` names a policy label that holds a
non-empty text rejected by its parser. -/
def blames {F : Type} (L : Lib F) (labels : List (String × String)) (msg e : String) : Prop :=
  (msg = "parse based cpu percentage" ∧ getLabel labels labelAutoScaleCPU ≠ "" ∧
    L.ParseFloat (getLabel labels labelAutoScaleCPU) = .error e) ∨
  (msg = "parse based memory percentage" ∧ getLabel labels labelAutoScaleMem ≠ "" ∧
    L.ParseFloat (getLabel labels labelAutoScaleMem) = .error e) ∨
  (msg = "parse min container service" ∧ getLabel labels labelAutoScaleMin ≠ "" ∧
    L.ParseInt (getLabel labels labelAutoScaleMin) = .error e) ∨
  (msg = "parse max container service" ∧ getLabel labels labelAutoScaleMax ≠ "" ∧
    L.ParseInt (getLabel labels labelAutoScaleMax) = .error e)

/-- One of the four policy labels holds a non-empty text that its parser rejects. -/
def malformedPolicy {F : Type} (L : Lib F) (labels : List (String × String)) : Prop :=
  ∃ msg e, blames L labels msg e

/-- The service has a status with at least one running task. -/
def Service.hasRunningTasks (s : Service) : Bool :=
  match s.ServiceStatus with
  | none => false
  | some status => status.RunningTasks != 0

/-- The running services: those for which the loop body calls `watchStats`. -/
def running (svcs : List Service) : Nat :=
  svcs.countP Service.hasRunningTasks

/-- The metric the specification describes: a trailing percent sign stripped,
the rest parsed. -/
def trimmedMetric {F : Type} (L : Lib F) (s : String) : Except String F :=
  L.ParseFloat (TrimSuffixPercent s)

/-! ## Example data -/

/-- Two containers of the service `api`, then one of the service `db`. -/
def threeRecords : String :=
  statsLine "c1" "api.1.xyz" "10MiB / 1GiB" "30.1%" "45.2%" "0B / 0B" "0B / 0B" "3" ++ "\n" ++
  statsLine "c2" "api.2.abc" "20MiB / 1GiB" "31.5%" "50.0%" "1kB / 0B" "0B / 0B" "4" ++ "\n\n" ++
  statsLine "c3" "db" "5MiB / 1GiB" "1.2%" "0.5%" "0B / 0B" "0B / 0B" "9" ++ "\n"

/-- A record, a line that is no record, a record. -/
def brokenRecords : String :=
  statsLine "c1" "api.1.xyz" "10MiB / 1GiB" "30.1%" "45.2%" "0B / 0B" "0B / 0B" "3" ++ "\n" ++
  "Error response from daemon" ++ "\n" ++
  statsLine "c3" "db" "5MiB / 1GiB" "1.2%" "0.5%" "0B / 0B" "0B / 0B" "9" ++ "\n"

/-- The stats output of the first end-to-end scenario: one container of `api`. -/
def apiStats : String :=
  statsLine "c1" "api.1.xyz" "10MiB / 1GiB" "30.1%" "45.2%" "0B / 0B" "0B / 0B" "3" ++ "\n"

/-- The service of the first end-to-end scenario. -/
def apiService : Service where
  ID := "svc-api"
  Name := "api"
  Labels := [("swarm.autoscale", "true"), ("swarm.autoscale.cpu", "70"),
             ("swarm.autoscale.min", "2"), ("swarm.autoscale.max", "10")]
  ServiceStatus := some { RunningTasks := 1 }
  Replicas := some 3

/-- A service without running tasks. -/
def idleService : Service where
  ID := "svc-idle"
  Name := "idle"
  Labels := [("swarm.autoscale", "true")]
  ServiceStatus := some { RunningTasks := 0 }
  Replicas := some 1

/-- A service with one running task and no policy label. -/
def dbService : Service where
  ID := "svc-db"
  Name := "db"
  Labels := [("swarm.autoscale", "true")]
  ServiceStatus := some { RunningTasks := 1 }
  Replicas := some 1

/-- The record of the `api` container in `apiStats`. -/
def apiRecord : Stats where
  Container := "c1"
  Name := "api.1.xyz"
  Memory := { Raw := "10MiB / 1GiB", Percent := "30.1%" }
  CPU := "45.2%"
  Io := { Network := "0B / 0B", Block := "0B / 0B" }
  PIDs := 3

/-- The container of the first end-to-end scenario. -/
def apiSignal : Container Dec where
  ServiceID := "svc-api"
  ServiceName := "api"
  Current := { CPUPercentage := ⟨452, 1⟩, MemoryPercentage := ⟨301, 1⟩, Replicas := 3 }
  Based := { CPUPercentage := ⟨70, 0⟩, MemoryPercentage := ⟨0, 0⟩, Min := 2, Max := 10 }

/-- A later output of the stats command, with other figures. -/
def laterRecords : String :=
  statsLine "c1" "api.1.xyz" "90MiB / 1GiB" "80.0%" "99.9%" "0B / 0B" "0B / 0B" "3" ++ "\n" ++
  statsLine "c3" "db" "50MiB / 1GiB" "12.0%" "88.8%" "0B / 0B" "0B / 0B" "9" ++ "\n"

/-- A collector whose output changes after its first invocation. -/
def changingExec (n : Nat) : Except String String :=
  if n = 0 then .ok threeRecords else .ok laterRecords

/-- The `api` container reporting percentage texts whose percent sign is not
trailing: memory `%12`, CPU `4%5`. -/
def oddStats : String :=
  statsLine "c1" "api.1.xyz" "10MiB / 1GiB" "%12" "4%5" "0B / 0B" "0B / 0B" "3" ++ "\n"

/-- The `db` service with the CPU label set to the text `0`. -/
def dbZeroService : Service :=
  { dbService with Labels := ("swarm.autoscale.cpu", "0") :: dbService.Labels }

/-- The `db` service with the CPU label present and empty. -/
def dbEmptyService : Service :=
  { dbService with Labels := ("swarm.autoscale.cpu", "") :: dbService.Labels }

/-- The `db` service with a CPU label that is no number. -/
def dbBadService : Service :=
  { dbService with Labels := ("swarm.autoscale.cpu", "high") :: dbService.Labels }

/-- The `api` service with a replica count of `2 ^ 63`. -/
def hugeService : Service :=
  { apiService with Replicas := some (2 ^ 63) }

/-- The answer `200 OK` with an empty body. -/
def ok200 : Response where
  StatusCode := 200
  Status := "200 OK"
  Body := .ok ""

/-- An answer with status 503 whose body cannot be read. -/
def brokenBody : Response where
  StatusCode := 503
  Status := "503 Service Unavailable"
  Body := .error "unexpected EOF"

/-- A service whose status pointer is nil. -/
def noStatusService : Service :=
  { dbService with ServiceStatus := none }

/-- The answer of an overloaded server: status 503, body `overloaded`. -/
def overloaded : Response where
  StatusCode := 503
  Status := "503 Service Unavailable"
  Body := .ok "overloaded"

/-- A transport on which the request goes through and the server answers `resp`. -/
def netAnswering (resp : Response) : Net Dec where
  Marshal := fun c => .ok ("service " ++ c.ServiceName)
  NewRequest := fun body => .ok body
  Do := fun _ => .ok resp

/-! ## Lemmas on the stats map -/

theorem StatsMap.get_filter_ne (m : StatsMap) (k k' : String) :
    StatsMap.get (m.filter fun e => e.1 != k) k' = if k = k' then none else StatsMap.get m k' := by
  induction m with
  | nil => simp [StatsMap.get]
  | cons e rest ih =>
    obtain ⟨a, b⟩ := e
    by_cases hak : a = k
    · subst hak
      by_cases hk : a = k'
      · subst hk
        simpa [List.filter] using ih
      · simpa [List.filter, StatsMap.get, hk] using ih
    · have : (a != k) = true := by simp [hak]
      by_cases hk : k = k'
      · subst hk
        simp [List.filter, this, StatsMap.get, hak, ih]
      · simp [List.filter, this, StatsMap.get, hk, ih]

theorem StatsMap.get_set (m : StatsMap) (k k' : String) (v : Stats) :
    (m.set k v).get k' = if k = k' then some v else m.get k' := by
  by_cases hk : k = k'
  · simp [StatsMap.set, StatsMap.get, hk]
  · simp [StatsMap.set, StatsMap.get, hk, StatsMap.get_filter_ne]

theorem StatsMap.entries_set (m : StatsMap) (k k' : String) (v : Stats) :
    (m.set k v).entries k' = if k = k' then 1 else m.entries k' := by
  by_cases hk : k = k'
  · subst hk
    simp [StatsMap.set, StatsMap.entries, List.filter_filter]
  · have h1 : ((k == k') = false) := by simp [hk]
    have h2 : ∀ e : String × Stats, (e.1 == k' && e.1 != k) = (e.1 == k') := by
      intro e
      by_cases he : e.1 = k'
      · have : e.1 ≠ k := fun h => hk (h ▸ he)
        simp [he, this]
        exact fun h => hk h.symm
      · simp [he]
    simp [StatsMap.set, StatsMap.entries, List.filter_filter, List.filter, h1, hk, h2]

theorem storeAll_get (recs : List Stats) (m : StatsMap) (k : String) :
    (storeAll recs m).get k =
      match (recs.filter fun s => firstSegment s.Name = k).getLast? with
      | some s => some s
      | none => m.get k := by
  induction recs generalizing m with
  | nil => simp [storeAll]
  | cons r rest ih =>
    have hstep : storeAll (r :: rest) m = storeAll rest (m.set (firstSegment r.Name) r) := rfl
    rw [hstep, ih]
    by_cases hk : firstSegment r.Name = k
    · cases hrest : (rest.filter fun s => firstSegment s.Name = k).getLast? with
      | none =>
        have hnil : (rest.filter fun s => firstSegment s.Name = k) = [] := by
          simpa [List.getLast?_eq_none_iff] using hrest
        simp [List.filter, hk, hnil, StatsMap.get_set]
      | some s =>
        have hne : (rest.filter fun s => firstSegment s.Name = k) ≠ [] := by
          intro h; simp [h] at hrest
        obtain ⟨x, xs, hx⟩ := List.exists_cons_of_ne_nil hne
        rw [hx] at hrest
        simp [List.filter, hk, hx, List.getLast?_cons_cons, hrest]
    · simp [List.filter, hk, StatsMap.get_set]

theorem storeAll_entries (recs : List Stats) (m : StatsMap) (k : String)
    (h : ∃ s ∈ recs, firstSegment s.Name = k) : (storeAll recs m).entries k = 1 := by
  induction recs generalizing m with
  | nil => simp at h
  | cons r rest ih =>
    have hstep : storeAll (r :: rest) m = storeAll rest (m.set (firstSegment r.Name) r) := rfl
    rw [hstep]
    by_cases hrest : ∃ s ∈ rest, firstSegment s.Name = k
    · exact ih _ hrest
    · have hk : firstSegment r.Name = k := by
        obtain ⟨s, hs, hsk⟩ := h
        rcases List.mem_cons.mp hs with rfl | hs
        · exact hsk
        · exact absurd ⟨s, hs, hsk⟩ hrest
      have hinv : ∀ (l : List Stats) (m' : StatsMap), (∀ s ∈ l, firstSegment s.Name ≠ k) →
          (storeAll l m').entries k = m'.entries k := by
        intro l
        induction l with
        | nil => intro m' _; rfl
        | cons a l ihl =>
          intro m' hl
          have hs : storeAll (a :: l) m' = storeAll l (m'.set (firstSegment a.Name) a) := rfl
          rw [hs, ihl _ (fun s hs => hl s (List.mem_cons_of_mem _ hs)), StatsMap.entries_set]
          simp [hl a (List.mem_cons_self _ _)]
      rw [hinv rest _ (fun s hs hsk => hrest ⟨s, hs, hsk⟩), StatsMap.entries_set]
      simp [hk]

/-! ## Lemmas on `watchStats` -/

theorem watchStatsLoop_ok {F : Type} (L : Lib F) (lines : List String) (m : StatsMap)
    (h : ∀ line ∈ lines, line.length ≠ 0 → ∃ s, L.Unmarshal line = .ok s) :
    watchStatsLoop L lines m = .ok (storeAll (recordsOf L lines) m) := by
  induction lines generalizing m with
  | nil => rfl
  | cons con rest ih =>
    have hrest : ∀ line ∈ rest, line.length ≠ 0 → ∃ s, L.Unmarshal line = .ok s :=
      fun line hl => h line (List.mem_cons_of_mem _ hl)
    by_cases hlen : con.length = 0
    · simp [watchStatsLoop, recordsOf, hlen, ih _ hrest]
    · obtain ⟨s, hs⟩ := h con (List.mem_cons_self _ _) hlen
      simp [watchStatsLoop, recordsOf, hlen, hs, ih _ hrest, storeAll]

theorem watchStatsLoop_error {F : Type} (L : Lib F) (lines : List String) (m : StatsMap)
    (h : ∃ line ∈ lines, line.length ≠ 0 ∧ ∃ e, L.Unmarshal line = .error e) :
    ∃ e, watchStatsLoop L lines m = .error e := by
  induction lines generalizing m with
  | nil => simp at h
  | cons con rest ih =>
    by_cases hlen : con.length = 0
    · obtain ⟨line, hl, hne, hbad⟩ := h
      rcases List.mem_cons.mp hl with rfl | hl
      · exact absurd hlen hne
      · simpa [watchStatsLoop, hlen] using ih m ⟨line, hl, hne, hbad⟩
    · cases hu : L.Unmarshal con with
      | error e => exact ⟨e, by simp [watchStatsLoop, hlen, hu]⟩
      | ok s =>
        obtain ⟨line, hl, hne, e, hbad⟩ := h
        rcases List.mem_cons.mp hl with rfl | hl
        · rw [hu] at hbad; cases hbad
        · simpa [watchStatsLoop, hlen, hu] using ih _ ⟨line, hl, hne, e, hbad⟩

theorem wellFormed_iff {F : Type} (L : Lib F) (line : String) :
    wellFormed L line = true ↔ ∃ s, L.Unmarshal line = .ok s := by
  unfold wellFormed
  cases L.Unmarshal line <;> simp

theorem wellFormed_false_iff {F : Type} (L : Lib F) (line : String) :
    wellFormed L line = false ↔ ∃ e, L.Unmarshal line = .error e := by
  unfold wellFormed
  cases L.Unmarshal line <;> simp

/-! ## The stats collector (C6, C7) -/

/-- C6. When every non-empty line of the output is a well-formed record,
`watchStats` returns a map in which, for every key `k`, the entry under `k` is
the last record in output order whose name has first segment `k` (none when no
record has it), and every key that is the first segment of some record has
exactly one entry. -/
theorem watchStats_last_record_wins {F : Type} (L : Lib F) (out : String)
    (hwf : ∀ line ∈ Split out '\n', line.length ≠ 0 → wellFormed L line = true) :
    ∃ m, watchStats L (.ok out) = .ok m ∧
      (∀ k, m.get k = lastRecord L out k) ∧
      (∀ s ∈ records L out, m.entries (firstSegment s.Name) = 1) := by
  have h : ∀ line ∈ Split out '\n', line.length ≠ 0 → ∃ s, L.Unmarshal line = .ok s :=
    fun line hl hne => (wellFormed_iff L line).mp (hwf line hl hne)
  refine ⟨storeAll (records L out) [], ?_, ?_, ?_⟩
  · exact watchStatsLoop_ok L _ [] h
  · intro k
    rw [storeAll_get]
    unfold lastRecord
    cases ((records L out).filter fun s => firstSegment s.Name = k).getLast? <;> rfl
  · intro s hs
    exact storeAll_entries _ _ _ ⟨s, hs, rfl⟩

/-- C7. The collector is all-or-nothing: when some non-empty line of the
output is not a well-formed record `watchStats` returns an error and no map,
and when every non-empty line is well-formed it returns a map. -/
theorem watchStats_all_or_nothing {F : Type} (L : Lib F) (out : String) :
    ((∃ line ∈ Split out '\n', line.length ≠ 0 ∧ wellFormed L line = false) →
        ∃ e, watchStats L (.ok out) = .error e) ∧
    ((∀ line ∈ Split out '\n', line.length ≠ 0 → wellFormed L line = true) →
        ∃ m, watchStats L (.ok out) = .ok m) := by
  constructor
  · rintro ⟨line, hl, hne, hbad⟩
    exact watchStatsLoop_error L _ [] ⟨line, hl, hne, (wellFormed_false_iff L line).mp hbad⟩
  · intro hwf
    exact ⟨_, watchStatsLoop_ok L _ [] fun line hl hne => (wellFormed_iff L line).mp (hwf line hl hne)⟩

set_option maxRecDepth 100000 in
/-- Witness for C6: two `api` containers and one `db` container; the map has
one `api` entry, the record of the second container. -/
theorem watchStats_last_record_wins_witness :
    ∃ m, watchStats decimalLib (.ok threeRecords) = .ok m ∧
      (∀ k, m.get k = lastRecord decimalLib threeRecords k) ∧
      (∀ s ∈ records decimalLib threeRecords, m.entries (firstSegment s.Name) = 1) :=
  watchStats_last_record_wins decimalLib threeRecords (by decide)

set_option maxRecDepth 100000 in
/-- Witness for C7: one malformed line between two records gives an error;
the three well-formed records give a map. -/
theorem watchStats_all_or_nothing_witness :
    (∃ e, watchStats decimalLib (.ok brokenRecords) = .error e) ∧
    (∃ m, watchStats decimalLib (.ok threeRecords) = .ok m) :=
  ⟨(watchStats_all_or_nothing decimalLib brokenRecords).1
      ⟨"Error response from daemon", by decide, by decide, by decide⟩,
   (watchStats_all_or_nothing decimalLib threeRecords).2 (by decide)⟩

/-! ## Lemmas on the loop of `watchServices` -/

theorem correlate_signal {F : Type} (L : Lib F) (N : Net F) (m : StatsMap) (svc : Service)
    (c : Container F) (h : (correlate L N m svc).signal = some c) :
    ∃ st cpu mem based r, m.get svc.Name = some st ∧
      L.ParseFloat (ReplaceAll st.CPU '%' "") = .ok cpu ∧
      L.ParseFloat (ReplaceAll st.Memory.Percent '%' "") = .ok mem ∧
      basedStats L svc.Labels = .ok based ∧ svc.Replicas = some r ∧
      c = { ServiceID := svc.ID, ServiceName := svc.Name,
            Current := { CPUPercentage := cpu, MemoryPercentage := mem,
                         Replicas := intOfUint64 r },
            Based := based } ∧
      correlate L N m svc = .dispatched c (sendStats N c) := by
  unfold correlate at h ⊢
  cases hg : m.get svc.Name with
  | none => simp [hg, Outcome.signal] at h
  | some st =>
    cases hc : L.ParseFloat (ReplaceAll st.CPU '%' "") with
    | error e => simp [hg, hc, Outcome.signal] at h
    | ok cpu =>
      cases hm : L.ParseFloat (ReplaceAll st.Memory.Percent '%' "") with
      | error e => simp [hg, hc, hm, Outcome.signal] at h
      | ok mem =>
        cases hb : basedStats L svc.Labels with
        | error e => simp [hg, hc, hm, hb, Outcome.signal] at h
        | ok based =>
          cases hr : svc.Replicas with
          | none => simp [hg, hc, hm, hb, hr, Outcome.signal] at h
          | some r =>
            simp only [hg, hc, hm, hb, hr, Outcome.signal, Option.some.injEq] at h
            subst h
            exact ⟨st, cpu, mem, based, r, rfl, hc, hm, rfl, rfl, rfl, by simp [hc, hm]⟩

theorem correlate_halts {F : Type} (L : Lib F) (N : Net F) (m : StatsMap) (svc : Service)
    (h : (correlate L N m svc).halts = true) : svc.Replicas = none := by
  unfold correlate at h
  cases hg : m.get svc.Name with
  | none => simp [hg, Outcome.halts] at h
  | some st =>
    cases hc : L.ParseFloat (ReplaceAll st.CPU '%' "") with
    | error e => simp [hg, hc, Outcome.halts] at h
    | ok cpu =>
      cases hm : L.ParseFloat (ReplaceAll st.Memory.Percent '%' "") with
      | error e => simp [hg, hc, hm, Outcome.halts] at h
      | ok mem =>
        cases hb : basedStats L svc.Labels with
        | error e => simp [hg, hc, hm, hb, Outcome.halts] at h
        | ok based =>
          cases hr : svc.Replicas with
          | none => rfl
          | some r => simp [hg, hc, hm, hb, hr, Outcome.halts] at h

theorem correlate_not_returned {F : Type} (L : Lib F) (N : Net F) (m : StatsMap)
    (svc : Service) (e : String) : correlate L N m svc ≠ .returned e := by
  intro h
  unfold correlate at h
  repeat' split at h
  all_goals cases h

theorem correlate_not_nilStatus {F : Type} (L : Lib F) (N : Net F) (m : StatsMap)
    (svc : Service) : correlate L N m svc ≠ .nilStatus := by
  intro h
  unfold correlate at h
  repeat' split at h
  all_goals cases h

theorem hasRunningTasks_iff (svc : Service) :
    svc.hasRunningTasks = true ↔
      ∃ status, svc.ServiceStatus = some status ∧ status.RunningTasks ≠ 0 := by
  unfold Service.hasRunningTasks
  cases svc.ServiceStatus with
  | none => simp
  | some status => simp

theorem loopBody_noStatus {F : Type} (L : Lib F) (N : Net F)
    (exec : Nat → Except String String) (n : Nat) (svc : Service)
    (h : svc.ServiceStatus = none) : loopBody L N exec n svc = (.nilStatus, n) := by
  simp [loopBody, h]

theorem loopBody_idle {F : Type} (L : Lib F) (N : Net F) (exec : Nat → Except String String)
    (n : Nat) (svc : Service) (status : ServiceStatus) (hs : svc.ServiceStatus = some status)
    (h : status.RunningTasks = 0) :
    loopBody L N exec n svc = (.warn ("service " ++ svc.Name ++ " has no running tasks"), n) := by
  simp [loopBody, hs, h]

theorem loopBody_running {F : Type} (L : Lib F) (N : Net F)
    (exec : Nat → Except String String) (n : Nat) (svc : Service)
    (h : svc.hasRunningTasks = true) :
    loopBody L N exec n svc =
      (match watchStats L (exec n) with
        | .error e => .returned e
        | .ok m => correlate L N m svc, n + 1) := by
  obtain ⟨status, hs, hne⟩ := (hasRunningTasks_iff svc).mp h
  unfold loopBody
  cases watchStats L (exec n) <;> simp [hs, hne]

/-- The three ways a service can stand before the loop body. -/
theorem service_cases (svc : Service) :
    svc.ServiceStatus = none ∨
    (∃ status, svc.ServiceStatus = some status ∧ status.RunningTasks = 0) ∨
    svc.hasRunningTasks = true := by
  cases hs : svc.ServiceStatus with
  | none => exact Or.inl rfl
  | some status =>
    by_cases h0 : status.RunningTasks = 0
    · exact Or.inr (Or.inl ⟨status, rfl, h0⟩)
    · exact Or.inr (Or.inr ((hasRunningTasks_iff svc).mpr ⟨status, hs, h0⟩))

theorem loopBody_halts {F : Type} (L : Lib F) (N : Net F) (exec : Nat → Except String String)
    (n : Nat) (svc : Service) (h : (loopBody L N exec n svc).1.halts = true) :
    svc.ServiceStatus = none ∨ (∃ e, watchStats L (exec n) = .error e) ∨
      svc.Replicas = none := by
  rcases service_cases svc with hn | ⟨status, hs, h0⟩ | hr
  · exact Or.inl hn
  · rw [loopBody_idle L N exec n svc status hs h0] at h
    simp [Outcome.halts] at h
  · rw [loopBody_running L N exec n svc hr] at h
    cases hw : watchStats L (exec n) with
    | error e => exact Or.inr (Or.inl ⟨e, rfl⟩)
    | ok m =>
      rw [hw] at h
      exact Or.inr (Or.inr (correlate_halts L N m svc h))

theorem loopBody_signal {F : Type} (L : Lib F) (N : Net F) (exec : Nat → Except String String)
    (n : Nat) (svc : Service) (c : Container F)
    (h : (loopBody L N exec n svc).1.signal = some c) :
    svc.hasRunningTasks = true ∧
      ∃ m, watchStats L (exec n) = .ok m ∧ (correlate L N m svc).signal = some c := by
  rcases service_cases svc with hn | ⟨status, hs, h0⟩ | hr
  · rw [loopBody_noStatus L N exec n svc hn] at h
    simp [Outcome.signal] at h
  · rw [loopBody_idle L N exec n svc status hs h0] at h
    simp [Outcome.signal] at h
  · rw [loopBody_running L N exec n svc hr] at h
    cases hw : watchStats L (exec n) with
    | error e => rw [hw] at h; simp [Outcome.signal] at h
    | ok m => rw [hw] at h; exact ⟨hr, m, rfl, h⟩

theorem loopBody_returned {F : Type} (L : Lib F) (N : Net F)
    (exec : Nat → Except String String) (n : Nat) (svc : Service) (e : String)
    (h : (loopBody L N exec n svc).1 = .returned e) : watchStats L (exec n) = .error e := by
  rcases service_cases svc with hn | ⟨status, hs, h0⟩ | hr
  · rw [loopBody_noStatus L N exec n svc hn] at h
    cases h
  · rw [loopBody_idle L N exec n svc status hs h0] at h
    cases h
  · rw [loopBody_running L N exec n svc hr] at h
    cases hw : watchStats L (exec n) with
    | error e' => rw [hw] at h; cases h; rfl
    | ok m => rw [hw] at h; exact absurd h (correlate_not_returned L N m svc e)

theorem loopBody_nilStatus {F : Type} (L : Lib F) (N : Net F)
    (exec : Nat → Except String String) (n : Nat) (svc : Service)
    (h : (loopBody L N exec n svc).1 = .nilStatus) : svc.ServiceStatus = none := by
  rcases service_cases svc with hn | ⟨status, hs, h0⟩ | hr
  · exact hn
  · rw [loopBody_idle L N exec n svc status hs h0] at h
    cases h
  · rw [loopBody_running L N exec n svc hr] at h
    cases hw : watchStats L (exec n) with
    | error e' => rw [hw] at h; cases h
    | ok m => rw [hw] at h; exact absurd h (correlate_not_nilStatus L N m svc)

theorem running_single (svc : Service) :
    running [svc] = if svc.hasRunningTasks then 1 else 0 := by
  simp [running, List.countP_cons]

theorem loopBody_calls {F : Type} (L : Lib F) (N : Net F) (exec : Nat → Except String String)
    (n : Nat) (svc : Service) : (loopBody L N exec n svc).2 = n + running [svc] := by
  rcases service_cases svc with hn | ⟨status, hs, h0⟩ | hr
  · rw [loopBody_noStatus L N exec n svc hn]
    simp [running_single, Service.hasRunningTasks, hn]
  · rw [loopBody_idle L N exec n svc status hs h0]
    simp [running_single, Service.hasRunningTasks, hs, h0]
  · rw [loopBody_running L N exec n svc hr]
    simp [running_single, hr]

theorem running_cons (svc : Service) (rest : List Service) :
    running (svc :: rest) = running [svc] + running rest := by
  simp only [running, List.countP_cons, List.countP_nil]
  omega

theorem ret_of_halts {F : Type} (o : Outcome F) (h : o.halts = true) : o.ret ≠ .nil := by
  cases o <;> simp [Outcome.halts, Outcome.ret] at h ⊢

theorem ret_err {F : Type} (o : Outcome F) (e : String) (h : o.ret = .err e) :
    o = .returned e := by
  cases o <;> simp [Outcome.ret] at h ⊢
  exact h

theorem watchLoop_cons {F : Type} (L : Lib F) (N : Net F) (strikes : Nat → Bool)
    (exec : Nat → Except String String) (svc : Service) (rest : List Service)
    (i n : Nat) (p : Bool) :
    watchLoop L N strikes exec (svc :: rest) i n p =
      if (loopBody L N exec n svc).1.halts then
        { outcomes := [(loopBody L N exec n svc).1], calls := (loopBody L N exec n svc).2,
          pending := p, ret := (loopBody L N exec n svc).1.ret }
      else if (p || (loopBody L N exec n svc).1.panics) && strikes i then
        { outcomes := [(loopBody L N exec n svc).1], calls := (loopBody L N exec n svc).2,
          pending := true, ret := .fault }
      else
        { outcomes := (loopBody L N exec n svc).1 ::
            (watchLoop L N strikes exec rest (i + 1) (loopBody L N exec n svc).2
              (p || (loopBody L N exec n svc).1.panics)).outcomes,
          calls := (watchLoop L N strikes exec rest (i + 1) (loopBody L N exec n svc).2
              (p || (loopBody L N exec n svc).1.panics)).calls,
          pending := (watchLoop L N strikes exec rest (i + 1) (loopBody L N exec n svc).2
              (p || (loopBody L N exec n svc).1.panics)).pending,
          ret := (watchLoop L N strikes exec rest (i + 1) (loopBody L N exec n svc).2
              (p || (loopBody L N exec n svc).1.panics)).ret } := rfl

theorem watchLoop_head {F : Type} (L : Lib F) (N : Net F) (strikes : Nat → Bool)
    (exec : Nat → Except String String) (svc : Service) (rest : List Service)
    (i n : Nat) (p : Bool) :
    (watchLoop L N strikes exec (svc :: rest) i n p).outcomes[0]? =
      some (loopBody L N exec n svc).1 := by
  rw [watchLoop_cons]
  split
  · simp
  · split <;> simp

theorem watchLoop_get {F : Type} (L : Lib F) (N : Net F) (strikes : Nat → Bool)
    (exec : Nat → Except String String) (svcs : List Service) (i n j : Nat) (p : Bool)
    (o : Outcome F) (h : (watchLoop L N strikes exec svcs i n p).outcomes[j]? = some o) :
    ∃ svc, svcs[j]? = some svc ∧
      o = (loopBody L N exec (n + running (svcs.take j)) svc).1 := by
  induction svcs generalizing i n j p with
  | nil => simp [watchLoop] at h
  | cons svc rest ih =>
    cases j with
    | zero =>
      rw [watchLoop_head] at h
      refine ⟨svc, by simp, ?_⟩
      have h0 : n + running ((svc :: rest).take 0) = n := by simp [running]
      rw [h0]
      exact (Option.some.inj h).symm
    | succ k =>
      rw [watchLoop_cons] at h
      split at h
      · simp at h
      · split at h
        · simp at h
        · simp only [List.getElem?_cons_succ] at h
          obtain ⟨svc', hs, ho⟩ := ih _ _ k _ h
          refine ⟨svc', by simpa using hs, ?_⟩
          rw [ho, loopBody_calls, List.take_succ_cons, running_cons svc (rest.take k),
            Nat.add_assoc]

theorem watchLoop_mem_head {F : Type} (L : Lib F) (N : Net F) (strikes : Nat → Bool)
    (exec : Nat → Except String String) (svc : Service) (rest : List Service)
    (i n : Nat) (p : Bool) :
    (loopBody L N exec n svc).1 ∈ (watchLoop L N strikes exec (svc :: rest) i n p).outcomes :=
  List.getElem?_mem (watchLoop_head L N strikes exec svc rest i n p)

theorem watchLoop_complete {F : Type} (L : Lib F) (N : Net F) (strikes : Nat → Bool)
    (exec : Nat → Except String String) (svcs : List Service) (i n : Nat)
    (hst : ∀ svc ∈ svcs, svc.ServiceStatus ≠ none)
    (hr : ∀ svc ∈ svcs, svc.Replicas ≠ none)
    (hs : ∀ k, ∃ m, watchStats L (exec k) = .ok m)
    (hp : ∀ o ∈ (watchLoop L N strikes exec svcs i n false).outcomes, o.panics = false) :
    (watchLoop L N strikes exec svcs i n false).ret = .nil ∧
      (watchLoop L N strikes exec svcs i n false).outcomes.length = svcs.length ∧
      (watchLoop L N strikes exec svcs i n false).pending = false := by
  induction svcs generalizing i n with
  | nil => simp [watchLoop]
  | cons svc rest ih =>
    have hh : (loopBody L N exec n svc).1.halts = false := by
      cases hb : (loopBody L N exec n svc).1.halts with
      | false => rfl
      | true =>
        rcases loopBody_halts L N exec n svc hb with h1 | ⟨e, he⟩ | h3
        · exact absurd h1 (hst svc (List.mem_cons_self _ _))
        · obtain ⟨m, hm⟩ := hs n
          rw [hm] at he; cases he
        · exact absurd h3 (hr svc (List.mem_cons_self _ _))
    have hpan : (loopBody L N exec n svc).1.panics = false :=
      hp _ (watchLoop_mem_head L N strikes exec svc rest i n false)
    rw [watchLoop_cons] at hp ⊢
    simp only [hh, hpan, Bool.false_eq_true, if_false, Bool.or_false, Bool.false_and] at hp ⊢
    obtain ⟨h1, h2, h3⟩ := ih (i + 1) (loopBody L N exec n svc).2
      (fun s hs' => hst s (List.mem_cons_of_mem _ hs'))
      (fun s hs' => hr s (List.mem_cons_of_mem _ hs'))
      (fun o ho => hp o (List.mem_cons_of_mem _ ho))
    exact ⟨h1, by simp [h2], h3⟩

theorem watchLoop_append {F : Type} (L : Lib F) (N : Net F) (strikes : Nat → Bool)
    (exec : Nat → Except String String) (pre rest : List Service) (i n : Nat) (p : Bool)
    (h : (watchLoop L N strikes exec pre i n p).ret = .nil) :
    (watchLoop L N strikes exec (pre ++ rest) i n p).outcomes =
      (watchLoop L N strikes exec pre i n p).outcomes ++
        (watchLoop L N strikes exec rest (i + pre.length)
          (watchLoop L N strikes exec pre i n p).calls
          (watchLoop L N strikes exec pre i n p).pending).outcomes ∧
    (watchLoop L N strikes exec (pre ++ rest) i n p).ret =
      (watchLoop L N strikes exec rest (i + pre.length)
        (watchLoop L N strikes exec pre i n p).calls
        (watchLoop L N strikes exec pre i n p).pending).ret ∧
    (watchLoop L N strikes exec pre i n p).outcomes.length = pre.length ∧
    (watchLoop L N strikes exec pre i n p).calls = n + running pre := by
  induction pre generalizing i n p with
  | nil => simp [watchLoop, running]
  | cons svc pre' ih =>
    rw [watchLoop_cons] at h
    by_cases hh : (loopBody L N exec n svc).1.halts = true
    · simp only [hh, if_true] at h
      exact absurd h (ret_of_halts _ hh)
    · by_cases hk : ((p || (loopBody L N exec n svc).1.panics) && strikes i) = true
      · simp only [hh, hk, if_true, if_false] at h
        cases h
      · rw [if_neg hh, if_neg hk] at h
        obtain ⟨h1, h2, h3, h4⟩ := ih (i + 1) (loopBody L N exec n svc).2
          (p || (loopBody L N exec n svc).1.panics) h
        have hidx : i + 1 + pre'.length = i + (svc :: pre').length := by
          simp only [List.length_cons]; omega
        rw [hidx] at h1 h2
        refine ⟨?_, ?_, ?_, ?_⟩
        · rw [List.cons_append, watchLoop_cons, watchLoop_cons, if_neg hh, if_neg hk,
            if_neg hh, if_neg hk]
          simp only [h1, List.cons_append]
        · rw [List.cons_append, watchLoop_cons, watchLoop_cons, if_neg hh, if_neg hk,
            if_neg hh, if_neg hk]
          exact h2
        · rw [watchLoop_cons, if_neg hh, if_neg hk]
          simp [h3]
        · rw [watchLoop_cons, if_neg hh, if_neg hk]
          simp only [h4]
          rw [loopBody_calls, running_cons svc pre', Nat.add_assoc]

theorem watchLoop_at {F : Type} (L : Lib F) (N : Net F) (strikes : Nat → Bool)
    (exec : Nat → Except String String) (pre post : List Service) (svc : Service)
    (h : (watchLoop L N strikes exec pre 0 0 false).ret = .nil) :
    (watchLoop L N strikes exec (pre ++ svc :: post) 0 0 false).outcomes[pre.length]? =
      some (loopBody L N exec (running pre) svc).1 := by
  obtain ⟨h1, -, h3, h4⟩ := watchLoop_append L N strikes exec pre (svc :: post) 0 0 false h
  rw [h1, List.getElem?_append_right (by omega), h3, Nat.sub_self, h4, watchLoop_head,
    Nat.zero_add]

theorem watchLoop_ret_err {F : Type} (L : Lib F) (N : Net F) (strikes : Nat → Bool)
    (exec : Nat → Except String String) (svcs : List Service) (i n : Nat) (p : Bool)
    (e : String) (h : (watchLoop L N strikes exec svcs i n p).ret = .err e) :
    .returned e ∈ (watchLoop L N strikes exec svcs i n p).outcomes := by
  induction svcs generalizing i n p with
  | nil => simp [watchLoop] at h
  | cons svc rest ih =>
    rw [watchLoop_cons] at h ⊢
    by_cases hh : (loopBody L N exec n svc).1.halts = true
    · simp only [hh, if_true] at h ⊢
      rw [ret_err _ e h]
      exact List.mem_cons_self _ _
    · by_cases hk : ((p || (loopBody L N exec n svc).1.panics) && strikes i) = true
      · simp only [hh, hk, if_true, if_false] at h
        cases h
      · simp only [hh, hk, if_false] at h ⊢
        exact List.mem_cons_of_mem _ (ih _ _ _ h)

theorem watchLoop_congr_at {F : Type} (L : Lib F) (N : Net F) (strikes : Nat → Bool)
    (exec : Nat → Except String String) (pre post : List Service) (svc svc' : Service)
    (i n : Nat) (p : Bool) (h : ∀ k, loopBody L N exec k svc' = loopBody L N exec k svc) :
    watchLoop L N strikes exec (pre ++ svc' :: post) i n p =
      watchLoop L N strikes exec (pre ++ svc :: post) i n p := by
  induction pre generalizing i n p with
  | nil => simp only [List.nil_append, watchLoop_cons, h]
  | cons a pre' ih => simp only [List.cons_append, watchLoop_cons, ih]

set_option maxRecDepth 100000 in
theorem threeRecords_ok : ∃ m, watchStats decimalLib (.ok threeRecords) = .ok m := by
  refine ⟨_, watchStatsLoop_ok decimalLib _ [] ?_⟩
  intro line hl hne
  exact (wellFormed_iff decimalLib line).mp
    ((by decide : ∀ line ∈ Split threeRecords '\n', line.length ≠ 0 →
        wellFormed decimalLib line = true) line hl hne)

/-! ## The dispatcher (C1) -/

/-- The result of `sendStats` once the request has been answered. -/
theorem sendStats_answered {F : Type} (N : Net F) (c : Container F) (jsonData req : String)
    (resp : Response) (h1 : N.Marshal c = .ok jsonData) (h2 : N.NewRequest jsonData = .ok req)
    (h3 : N.Do req = .ok resp) :
    sendStats N c =
      if 200 ≤ resp.StatusCode ∧ resp.StatusCode < 207 then .nil
      else
        match resp.Body with
        | .error e => .panic e
        | .ok body => .err ("unable to send stats*(" ++ resp.Status ++ "): " ++ body) := by
  simp [sendStats, h1, h2, h3, StatusOK, StatusMultiStatus]

/-- C1. On a response with status 207, inside the range 200 to 299, `sendStats`
returns the error carrying the status and the body, not success. -/
theorem sendStats_207_is_error (c : Container Dec) :
    sendStats (netAnswering { StatusCode := 207, Status := "207 Multi-Status", Body := .ok "ok" }) c
      = .err "unable to send stats*(207 Multi-Status): ok" := by
  simp [sendStats, netAnswering, StatusOK, StatusMultiStatus]

/-! ## The cycle: where signals come from (C3) -/

/-- C3. A container dispatched at position `i` of a cycle belongs to the
`i`-th service of the list, that service has at least one running task, and its
name is a key of the stats map that the collector returned for it (the
invocation numbered by the running services before it); a service without
running tasks gets the warning and no container. -/
theorem watchServices_signal_origin {F : Type} (L : Lib F) (N : Net F) (strikes : Nat → Bool)
    (svcs : List Service) (exec : Nat → Except String String) :
    (∀ (i : Nat) (c : Container F) (r : SendResult),
      (watchServices L N strikes (.ok svcs) exec).outcomes[i]? = some (.dispatched c r) →
      ∃ svc status, svcs[i]? = some svc ∧ c.ServiceID = svc.ID ∧ c.ServiceName = svc.Name ∧
        svc.ServiceStatus = some status ∧ status.RunningTasks ≠ 0 ∧
        ∃ m st, watchStats L (exec (running (svcs.take i))) = .ok m ∧
          m.get svc.Name = some st) ∧
    (∀ (i : Nat) (svc : Service) (status : ServiceStatus) (o : Outcome F),
      svcs[i]? = some svc → svc.ServiceStatus = some status → status.RunningTasks = 0 →
      (watchServices L N strikes (.ok svcs) exec).outcomes[i]? = some o →
      o = .warn ("service " ++ svc.Name ++ " has no running tasks")) := by
  constructor
  · intro i c r h
    obtain ⟨svc, hs, ho⟩ := watchLoop_get L N strikes exec svcs 0 0 i false _ h
    rw [Nat.zero_add] at ho
    have hsig : (loopBody L N exec (running (svcs.take i)) svc).1.signal = some c := by
      rw [← ho]; rfl
    obtain ⟨hr, m, hm, hc⟩ := loopBody_signal L N exec _ svc c hsig
    obtain ⟨status, hst, hne⟩ := (hasRunningTasks_iff svc).mp hr
    obtain ⟨st, cpu, mem, based, rep, hg, -, -, -, -, rfl, -⟩ := correlate_signal L N m svc c hc
    exact ⟨svc, status, hs, rfl, rfl, hst, hne, m, st, hm, hg⟩
  · intro i svc status o hs hst hz h
    obtain ⟨svc', hs', ho⟩ := watchLoop_get L N strikes exec svcs 0 0 i false _ h
    rw [hs] at hs'
    cases hs'
    rw [ho, loopBody_idle L N exec _ svc status hst hz]

set_option maxRecDepth 100000 in
/-- Witness for C3: an idle service and `api`; the container at position 1 is
that of `api`, the idle service gets the warning. -/
theorem watchServices_signal_origin_witness :
    (∃ svc status, [idleService, apiService][1]? = some svc ∧ "svc-api" = svc.ID ∧
        "api" = svc.Name ∧ svc.ServiceStatus = some status ∧ status.RunningTasks ≠ 0 ∧
        ∃ (m : StatsMap) (st : Stats),
          watchStats decimalLib
            ((fun _ => Except.ok apiStats) (running ([idleService, apiService].take 1))) = .ok m ∧
          m.get svc.Name = some st) ∧
    (Outcome.warn "service idle has no running tasks" : Outcome Dec) =
      .warn ("service " ++ idleService.Name ++ " has no running tasks") :=
  ⟨(watchServices_signal_origin decimalLib (netAnswering ok200) (fun _ => false)
      [idleService, apiService] (fun _ => .ok apiStats)).1 1 apiSignal .nil (by decide),
   (watchServices_signal_origin decimalLib (netAnswering ok200) (fun _ => false)
      [idleService, apiService] (fun _ => .ok apiStats)).2 0 idleService
      { RunningTasks := 0 } _ (by decide) (by decide) (by decide) (by decide)⟩

/-! ## The cycle: its return value (C8) -/

/-- C8, as the code has it. After a successful enumeration of services whose
status and replica count are set: when every stats collection succeeds and no
goroutine started by the cycle panics, the cycle visits every service and
returns nil, whatever the metric parses, the policy parses and the dispatches
give; an error the cycle returns is the error of a stats collection; and when
the collection made for a running service fails, the cycle returns that error
and visits no later service. -/
theorem watchServices_return {F : Type} (L : Lib F) (N : Net F) (strikes : Nat → Bool)
    (svcs : List Service) (exec : Nat → Except String String)
    (hst : ∀ svc ∈ svcs, svc.ServiceStatus ≠ none)
    (hr : ∀ svc ∈ svcs, svc.Replicas ≠ none) :
    ((∀ k, ∃ m, watchStats L (exec k) = .ok m) →
      (∀ c e, Outcome.dispatched c (.panic e) ∉
        (watchServices L N strikes (.ok svcs) exec).outcomes) →
      (watchServices L N strikes (.ok svcs) exec).ret = .nil ∧
      (watchServices L N strikes (.ok svcs) exec).outcomes.length = svcs.length) ∧
    (∀ e, (watchServices L N strikes (.ok svcs) exec).ret = .err e →
      ∃ k, watchStats L (exec k) = .error e) ∧
    (∀ (pre post : List Service) (svc : Service) (e : String), svcs = pre ++ svc :: post →
      (watchServices L N strikes (.ok pre) exec).ret = .nil →
      svc.hasRunningTasks = true → watchStats L (exec (running pre)) = .error e →
      (watchServices L N strikes (.ok svcs) exec).ret = .err e ∧
      (watchServices L N strikes (.ok svcs) exec).outcomes.length = pre.length + 1) := by
  refine ⟨?_, ?_, ?_⟩
  · intro hs hp
    have hp' : ∀ o ∈ (watchLoop L N strikes exec svcs 0 0 false).outcomes,
        o.panics = false := by
      intro o ho
      cases o with
      | dispatched c r =>
        cases r with
        | panic e => exact absurd ho (hp c e)
        | nil => rfl
        | err e => rfl
      | _ => rfl
    obtain ⟨h1, h2, -⟩ := watchLoop_complete L N strikes exec svcs 0 0 hst hr hs hp'
    exact ⟨h1, h2⟩
  · intro e he
    have hmem := watchLoop_ret_err L N strikes exec svcs 0 0 false e he
    obtain ⟨i, hi⟩ := List.getElem?_of_mem hmem
    obtain ⟨svc, -, ho⟩ := watchLoop_get L N strikes exec svcs 0 0 i false _ hi
    exact ⟨_, loopBody_returned L N exec _ svc e ho.symm⟩
  · intro pre post svc e hsv hpre hrun hw
    subst hsv
    obtain ⟨h1, h2, h3, h4⟩ :=
      watchLoop_append L N strikes exec pre (svc :: post) 0 0 false hpre
    have hbody : loopBody L N exec (running pre) svc = (.returned e, running pre + 1) := by
      rw [loopBody_running L N exec _ svc hrun, hw]
    rw [Nat.zero_add] at h4
    simp only [watchServices]
    rw [h1, h2, h4, watchLoop_cons, hbody]
    simp [Outcome.halts, Outcome.ret, h3]

set_option maxRecDepth 100000 in
/-- Witness for C8: three services, the collector answering the same three
records each time, the server answering 503 to every dispatch. -/
theorem watchServices_return_witness :
    (watchServices decimalLib (netAnswering overloaded) (fun _ => true)
        (.ok [idleService, apiService, dbService]) (fun _ => .ok threeRecords)).ret = .nil ∧
    (watchServices decimalLib (netAnswering overloaded) (fun _ => true)
        (.ok [idleService, apiService, dbService]) (fun _ => .ok threeRecords)).outcomes.length
      = [idleService, apiService, dbService].length :=
  (watchServices_return decimalLib (netAnswering overloaded) (fun _ => true)
    [idleService, apiService, dbService] (fun _ => .ok threeRecords) (by decide) (by decide)).1
    (fun _ => threeRecords_ok)
    (fun c e h => by
      have hall : ∀ o ∈ (watchServices decimalLib (netAnswering overloaded) (fun _ => true)
          (.ok [idleService, apiService, dbService]) (fun _ => .ok threeRecords)).outcomes,
          o.panics = false := by decide
      have := hall _ h
      simp [Outcome.panics] at this)

set_option maxRecDepth 100000 in
/-- Counterexample to C8: the stats command fails at its first invocation; the
cycle returns that error and the second service is never visited. -/
theorem watchServices_stats_failure_aborts :
    (watchServices decimalLib (netAnswering ok200) (fun _ => false)
        (.ok [apiService, dbService]) (fun _ => .error "exit status 1")).ret
      = .err "exit status 1" ∧
    (watchServices decimalLib (netAnswering ok200) (fun _ => false)
        (.ok [apiService, dbService]) (fun _ => .error "exit status 1")).outcomes
      = [.returned "exit status 1"] := by
  decide

set_option maxRecDepth 100000 in
/-- The faults of a cycle on examples: a goroutine whose `sendStats` panics on
the body read ends the process after its iteration when the schedule has it
strike at once, and leaves the loop running otherwise; a nil service status
faults at line 80. -/
theorem watchServices_faults :
    ((watchServices decimalLib (netAnswering brokenBody) (fun _ => true)
        (.ok [apiService, dbService]) (fun _ => .ok threeRecords)).ret = .fault ∧
     (watchServices decimalLib (netAnswering brokenBody) (fun _ => true)
        (.ok [apiService, dbService]) (fun _ => .ok threeRecords)).outcomes.length = 1) ∧
    ((watchServices decimalLib (netAnswering brokenBody) (fun _ => false)
        (.ok [apiService, dbService]) (fun _ => .ok threeRecords)).ret = .nil ∧
     (watchServices decimalLib (netAnswering brokenBody) (fun _ => false)
        (.ok [apiService, dbService]) (fun _ => .ok threeRecords)).pending = true ∧
     (watchServices decimalLib (netAnswering brokenBody) (fun _ => false)
        (.ok [apiService, dbService]) (fun _ => .ok threeRecords)).outcomes.length = 2) ∧
    ((watchServices decimalLib (netAnswering ok200) (fun _ => false)
        (.ok [noStatusService, apiService]) (fun _ => .ok threeRecords)).ret = .fault ∧
     (watchServices decimalLib (netAnswering ok200) (fun _ => false)
        (.ok [noStatusService, apiService]) (fun _ => .ok threeRecords)).outcomes
       = [.nilStatus]) := by
  decide

/-! ## Lemmas on a service inside the list -/

theorem ReplaceAll_append_percent (c : String) (h : '%' ∉ c.data) :
    ReplaceAll (c ++ "%") '%' "" = c := by
  have hfilter : ∀ l : List Char, '%' ∉ l →
      (l.flatMap fun x => if x = '%' then "".data else [x]) = l := by
    intro l
    induction l with
    | nil => intro _; rfl
    | cons a l ih =>
      intro hl
      have ha : a ≠ '%' := fun h' => hl (h' ▸ List.mem_cons_self _ _)
      have hl' : '%' ∉ l := fun h' => hl (List.mem_cons_of_mem _ h')
      simp [List.flatMap_cons, ha, ih hl']
  unfold ReplaceAll
  have : (c ++ "%").data = c.data ++ ['%'] := by
    rw [String.data_append]
  rw [this, List.flatMap_append, hfilter _ h]
  simp

theorem basedStats_of_labels {F : Type} (L : Lib F) (labels : List (String × String))
    (bcpu bmem : F) (bmin bmax : Int)
    (hcpu : labelParsesTo L.ParseFloat L.zero labels labelAutoScaleCPU bcpu)
    (hmem : labelParsesTo L.ParseFloat L.zero labels labelAutoScaleMem bmem)
    (hmin : labelParsesTo L.ParseInt 0 labels labelAutoScaleMin bmin)
    (hmax : labelParsesTo L.ParseInt 0 labels labelAutoScaleMax bmax) :
    basedStats L labels =
      .ok { CPUPercentage := bcpu, MemoryPercentage := bmem, Min := bmin, Max := bmax } := by
  have key : ∀ {α : Type} (parse : String → Except String α) (zero : α) (k : String) (v : α),
      labelParsesTo parse zero labels k v →
      (if getLabel labels k ≠ "" then parse (getLabel labels k) else .ok zero) = .ok v := by
    intro α parse zero k v hv
    rcases hv with ⟨ha, rfl⟩ | ⟨s, hs, hne, hp⟩
    · simp [getLabel, ha]
    · simp [getLabel, hs, hne, hp]
  unfold basedStats
  simp only [key _ _ _ _ hcpu, key _ _ _ _ hmem, key _ _ _ _ hmin, key _ _ _ _ hmax]

theorem intOfUint64_small (r : Nat) (h : r < 2 ^ 63) : intOfUint64 r = (r : Int) := by
  have h1 : r % 2 ^ 64 = r := Nat.mod_eq_of_lt (by omega)
  unfold intOfUint64
  rw [h1, if_pos h]

/-! ## The cycle: the signal of a service (C2) -/

/-- C2, as the code has it. A service reached by the cycle, with a running
task, a replica count `r` below `2 ^ 63`, an entry under its name in the stats
map of its collector invocation whose CPU and memory texts are `c%` and `m%`
for numerals `c`, `m`, and policy labels each absent or parseable, gets at its
position the dispatch of the container with current `cv, mv, r` and based
`bcpu, bmem, bmin, bmax`, zero standing for an absent label. -/
theorem watchServices_signal {F : Type} (L : Lib F) (N : Net F) (strikes : Nat → Bool)
    (pre post : List Service) (svc : Service) (status : ServiceStatus)
    (exec : Nat → Except String String) (m : StatsMap) (st : Stats) (c mm : String)
    (cv mv bcpu bmem : F) (bmin bmax : Int) (r : Nat)
    (hpre : (watchServices L N strikes (.ok pre) exec).ret = .nil)
    (hstatus : svc.ServiceStatus = some status) (hrun : status.RunningTasks ≠ 0)
    (hrep : svc.Replicas = some r) (hr : r < 2 ^ 63)
    (hstats : watchStats L (exec (running pre)) = .ok m) (hget : m.get svc.Name = some st)
    (hcpu : st.CPU = c ++ "%") (hc : '%' ∉ c.data) (hcv : L.ParseFloat c = .ok cv)
    (hmem : st.Memory.Percent = mm ++ "%") (hm : '%' ∉ mm.data) (hmv : L.ParseFloat mm = .ok mv)
    (hbcpu : labelParsesTo L.ParseFloat L.zero svc.Labels labelAutoScaleCPU bcpu)
    (hbmem : labelParsesTo L.ParseFloat L.zero svc.Labels labelAutoScaleMem bmem)
    (hbmin : labelParsesTo L.ParseInt 0 svc.Labels labelAutoScaleMin bmin)
    (hbmax : labelParsesTo L.ParseInt 0 svc.Labels labelAutoScaleMax bmax) :
    (watchServices L N strikes (.ok (pre ++ svc :: post)) exec).outcomes[pre.length]? =
      some (.dispatched
        { ServiceID := svc.ID, ServiceName := svc.Name,
          Current := { CPUPercentage := cv, MemoryPercentage := mv, Replicas := (r : Int) },
          Based := { CPUPercentage := bcpu, MemoryPercentage := bmem,
                     Min := bmin, Max := bmax } }
        (sendStats N
          { ServiceID := svc.ID, ServiceName := svc.Name,
            Current := { CPUPercentage := cv, MemoryPercentage := mv, Replicas := (r : Int) },
            Based := { CPUPercentage := bcpu, MemoryPercentage := bmem,
                       Min := bmin, Max := bmax } })) := by
  have hat := watchLoop_at L N strikes exec pre post svc hpre
  have hrun' : svc.hasRunningTasks = true :=
    (hasRunningTasks_iff svc).mpr ⟨status, hstatus, hrun⟩
  have hbody : (loopBody L N exec (running pre) svc).1 =
      .dispatched
        { ServiceID := svc.ID, ServiceName := svc.Name,
          Current := { CPUPercentage := cv, MemoryPercentage := mv, Replicas := (r : Int) },
          Based := { CPUPercentage := bcpu, MemoryPercentage := bmem,
                     Min := bmin, Max := bmax } }
        (sendStats N
          { ServiceID := svc.ID, ServiceName := svc.Name,
            Current := { CPUPercentage := cv, MemoryPercentage := mv, Replicas := (r : Int) },
            Based := { CPUPercentage := bcpu, MemoryPercentage := bmem,
                       Min := bmin, Max := bmax } }) := by
    rw [loopBody_running L N exec _ svc hrun', hstats]
    simp only [correlate, hget, hcpu, hmem, ReplaceAll_append_percent c hc,
      ReplaceAll_append_percent mm hm, hcv, hmv,
      basedStats_of_labels L svc.Labels bcpu bmem bmin bmax hbcpu hbmem hbmin hbmax, hrep,
      intOfUint64_small r hr]
  rw [← hbody]
  exact hat

set_option maxRecDepth 100000 in
/-- Witness for C2: the first end-to-end scenario, `api` between an idle
service and `db`. -/
theorem watchServices_signal_witness :
    (watchServices decimalLib (netAnswering ok200) (fun _ => false)
        (.ok ([idleService] ++ apiService :: [dbService]))
        (fun _ => .ok apiStats)).outcomes[[idleService].length]? =
      some (.dispatched
        { ServiceID := "svc-api", ServiceName := "api",
          Current := { CPUPercentage := ⟨452, 1⟩, MemoryPercentage := ⟨301, 1⟩,
                       Replicas := ((3 : Nat) : Int) },
          Based := { CPUPercentage := ⟨70, 0⟩, MemoryPercentage := ⟨0, 0⟩,
                     Min := 2, Max := 10 } }
        (sendStats (netAnswering ok200)
          { ServiceID := "svc-api", ServiceName := "api",
            Current := { CPUPercentage := ⟨452, 1⟩, MemoryPercentage := ⟨301, 1⟩,
                         Replicas := ((3 : Nat) : Int) },
            Based := { CPUPercentage := ⟨70, 0⟩, MemoryPercentage := ⟨0, 0⟩,
                       Min := 2, Max := 10 } })) :=
  watchServices_signal decimalLib (netAnswering ok200) (fun _ => false)
    [idleService] [dbService] apiService { RunningTasks := 1 } (fun _ => .ok apiStats)
    [("api", apiRecord)] apiRecord "45.2" "30.1" ⟨452, 1⟩ ⟨301, 1⟩ ⟨70, 0⟩ ⟨0, 0⟩ 2 10 3
    (by decide) (by decide) (by decide) rfl (by decide) (by decide) (by decide)
    (by decide) (by decide) (by decide) (by decide) (by decide) (by decide)
    (Or.inr ⟨"70", by decide, by decide, by decide⟩)
    (Or.inl ⟨by decide, rfl⟩)
    (Or.inr ⟨"2", by decide, by decide, by decide⟩)
    (Or.inr ⟨"10", by decide, by decide, by decide⟩)

set_option maxRecDepth 100000 in
/-- Counterexample to C2: with a replica count of `2 ^ 63` the container
carries the replica count `-2 ^ 63`. -/
theorem watchServices_signal_replicas_wrap :
    hugeService.Replicas = some 9223372036854775808 ∧
    (watchServices decimalLib (netAnswering ok200) (fun _ => false) (.ok [hugeService])
        (fun _ => .ok apiStats)).outcomes =
      [.dispatched { apiSignal with
        Current := { apiSignal.Current with Replicas := -9223372036854775808 } } .nil] := by
  decide

/-! ## The cycle: one collector invocation per running service (C9) -/

/-- C9, as the code has it. The collector is invoked once for every running
service: a service reached by the cycle after `k` running services is
correlated with the stats map of invocation number `k`, and `k` invocations
have been made before it. -/
theorem watchServices_snapshot_per_service {F : Type} (L : Lib F) (N : Net F)
    (strikes : Nat → Bool) (pre post : List Service) (svc : Service)
    (exec : Nat → Except String String)
    (hpre : (watchServices L N strikes (.ok pre) exec).ret = .nil)
    (hrun : svc.hasRunningTasks = true) :
    (watchServices L N strikes (.ok pre) exec).calls = running pre ∧
    (watchServices L N strikes (.ok (pre ++ svc :: post)) exec).outcomes[pre.length]? =
      some (match watchStats L (exec (running pre)) with
        | .error e => .returned e
        | .ok m => correlate L N m svc) := by
  obtain ⟨-, -, -, h4⟩ := watchLoop_append L N strikes exec pre [] 0 0 false hpre
  refine ⟨by simpa using h4, ?_⟩
  have hat := watchLoop_at L N strikes exec pre post svc hpre
  rw [loopBody_running L N exec _ svc hrun] at hat
  exact hat

set_option maxRecDepth 100000 in
/-- Witness for C9: `db` after `api`, on a collector whose output changes:
`db` is correlated with the second output. -/
theorem watchServices_snapshot_per_service_witness :
    (watchServices decimalLib (netAnswering ok200) (fun _ => false) (.ok [apiService])
        changingExec).calls = running [apiService] ∧
    (watchServices decimalLib (netAnswering ok200) (fun _ => false)
        (.ok ([apiService] ++ dbService :: [])) changingExec).outcomes[[apiService].length]? =
      some (match watchStats decimalLib (changingExec (running [apiService])) with
        | .error e => .returned e
        | .ok m => correlate decimalLib (netAnswering ok200) m dbService) :=
  watchServices_snapshot_per_service decimalLib (netAnswering ok200) (fun _ => false)
    [apiService] [] dbService changingExec (by decide) (by decide)

set_option maxRecDepth 100000 in
/-- Counterexample to C9: two running services and a collector whose output
changes after its first invocation. The collector is invoked twice, `api` gets
the figures of the first output and `db` those of the second; neither output
alone gives these two containers. -/
theorem watchServices_two_snapshots :
    (watchServices decimalLib (netAnswering ok200) (fun _ => false)
        (.ok [apiService, dbService]) changingExec).calls = 2 ∧
    (watchServices decimalLib (netAnswering ok200) (fun _ => false)
        (.ok [apiService, dbService]) changingExec).signals =
      [{ apiSignal with
          Current := { CPUPercentage := ⟨500, 1⟩, MemoryPercentage := ⟨315, 1⟩, Replicas := 3 } },
       { ServiceID := "svc-db", ServiceName := "db",
         Current := { CPUPercentage := ⟨888, 1⟩, MemoryPercentage := ⟨120, 1⟩, Replicas := 1 },
         Based := { CPUPercentage := ⟨0, 0⟩, MemoryPercentage := ⟨0, 0⟩, Min := 0, Max := 0 } }] ∧
    (watchServices decimalLib (netAnswering ok200) (fun _ => false)
        (.ok [apiService, dbService]) (fun _ => .ok threeRecords)).signals ≠
      (watchServices decimalLib (netAnswering ok200) (fun _ => false)
        (.ok [apiService, dbService]) changingExec).signals ∧
    (watchServices decimalLib (netAnswering ok200) (fun _ => false)
        (.ok [apiService, dbService]) (fun _ => .ok laterRecords)).signals ≠
      (watchServices decimalLib (netAnswering ok200) (fun _ => false)
        (.ok [apiService, dbService]) changingExec).signals := by
  decide

/-! ## Lemmas on the policy labels -/

theorem parse_guard_error {α : Type} (parse : String → Except String α) (zero : α)
    (s e : String) (h : (if s ≠ "" then parse s else .ok zero) = .error e) :
    s ≠ "" ∧ parse s = .error e := by
  by_cases hs : s = ""
  · simp [hs] at h
  · exact ⟨hs, by simpa [hs] using h⟩

theorem basedStats_error_blames {F : Type} (L : Lib F) (labels : List (String × String))
    (msg e : String) (h : basedStats L labels = .error (msg, e)) : blames L labels msg e := by
  unfold basedStats at h
  simp only at h
  split at h
  · rename_i e1 h1
    cases h
    exact Or.inl ⟨rfl, parse_guard_error _ _ _ _ h1⟩
  · split at h
    · rename_i e2 h2
      cases h
      exact Or.inr (Or.inl ⟨rfl, parse_guard_error _ _ _ _ h2⟩)
    · split at h
      · rename_i e3 h3
        cases h
        exact Or.inr (Or.inr (Or.inl ⟨rfl, parse_guard_error _ _ _ _ h3⟩))
      · split at h
        · rename_i e4 h4
          cases h
          exact Or.inr (Or.inr (Or.inr ⟨rfl, parse_guard_error _ _ _ _ h4⟩))
        · cases h

theorem basedStats_malformed {F : Type} (L : Lib F) (labels : List (String × String))
    (h : malformedPolicy L labels) : ∃ msg e, basedStats L labels = .error (msg, e) := by
  cases hb : basedStats L labels with
  | error p => exact ⟨p.1, p.2, rfl⟩
  | ok based =>
    exfalso
    unfold basedStats at hb
    simp only at hb
    split at hb
    · cases hb
    · rename_i v1 h1
      split at hb
      · cases hb
      · rename_i v2 h2
        split at hb
        · cases hb
        · rename_i v3 h3
          split at hb
          · cases hb
          · rename_i v4 h4
            obtain ⟨msg, e, hbl⟩ := h
            rcases hbl with ⟨-, hne, hp⟩ | ⟨-, hne, hp⟩ | ⟨-, hne, hp⟩ | ⟨-, hne, hp⟩
            · simp [hne, hp] at h1
            · simp [hne, hp] at h2
            · simp [hne, hp] at h3
            · simp [hne, hp] at h4

theorem correlate_of_policy_error {F : Type} (L : Lib F) (N : Net F) (m : StatsMap)
    (svc : Service) (msg e : String) (h : basedStats L svc.Labels = .error (msg, e)) :
    (∀ c r, correlate L N m svc ≠ .dispatched c r) ∧ (correlate L N m svc).halts = false := by
  unfold correlate
  cases hg : m.get svc.Name with
  | none => simp [Outcome.halts]
  | some st =>
    cases hc : L.ParseFloat (ReplaceAll st.CPU '%' "") with
    | error e1 => simp [hc, Outcome.halts]
    | ok cpu =>
      cases hm : L.ParseFloat (ReplaceAll st.Memory.Percent '%' "") with
      | error e2 => simp [hc, hm, Outcome.halts]
      | ok mem => simp [hc, hm, h, Outcome.halts]

theorem blames_msg {F : Type} (L : Lib F) (labels : List (String × String)) (msg e : String)
    (h : blames L labels msg e) :
    msg ≠ "parse cpu percentage" ∧ msg ≠ "parse memory percentage" := by
  rcases h with ⟨rfl, -⟩ | ⟨rfl, -⟩ | ⟨rfl, -⟩ | ⟨rfl, -⟩ <;> exact ⟨by decide, by decide⟩

theorem lookupLabel_cons (labels : List (String × String)) (key s k : String) :
    lookupLabel ((key, s) :: labels) k = if key = k then some s else lookupLabel labels k := rfl

theorem getLabel_cons_ne (labels : List (String × String)) (key s k : String) (h : key ≠ k) :
    getLabel ((key, s) :: labels) k = getLabel labels k := by
  simp [getLabel, lookupLabel_cons, h]

theorem getLabel_cons_self (labels : List (String × String)) (key s : String) :
    getLabel ((key, s) :: labels) key = s := by
  simp [getLabel, lookupLabel_cons]

theorem getLabel_absent (labels : List (String × String)) (key : String)
    (h : lookupLabel labels key = none) : getLabel labels key = "" := by
  simp [getLabel, h]

theorem basedStats_absent_zero {F : Type} (L : Lib F) (labels : List (String × String))
    (key s : String) (habs : lookupLabel labels key = none)
    (hz : ((key = labelAutoScaleCPU ∨ key = labelAutoScaleMem) ∧ L.ParseFloat s = .ok L.zero) ∨
      ((key = labelAutoScaleMin ∨ key = labelAutoScaleMax) ∧ L.ParseInt s = .ok 0)) :
    basedStats L ((key, s) :: labels) = basedStats L labels := by
  have hf : (if s ≠ "" then L.ParseFloat s else .ok L.zero) = .ok L.zero ∨
      ¬ (key = labelAutoScaleCPU ∨ key = labelAutoScaleMem) := by
    rcases hz with ⟨-, hp⟩ | ⟨hk, -⟩
    · left; by_cases hs : s = "" <;> simp [hs, hp]
    · right; rcases hk with rfl | rfl <;> decide
  have hi : (if s ≠ "" then L.ParseInt s else .ok 0) = .ok 0 ∨
      ¬ (key = labelAutoScaleMin ∨ key = labelAutoScaleMax) := by
    rcases hz with ⟨hk, -⟩ | ⟨-, hp⟩
    · right; rcases hk with rfl | rfl <;> decide
    · left; by_cases hs : s = "" <;> simp [hs, hp]
  have e1 : (if getLabel ((key, s) :: labels) labelAutoScaleCPU ≠ "" then
        L.ParseFloat (getLabel ((key, s) :: labels) labelAutoScaleCPU) else .ok L.zero) =
      (if getLabel labels labelAutoScaleCPU ≠ "" then
        L.ParseFloat (getLabel labels labelAutoScaleCPU) else .ok L.zero) := by
    by_cases hk : key = labelAutoScaleCPU
    · subst hk
      rcases hf with hf | hf
      · rw [getLabel_cons_self, getLabel_absent _ _ habs, hf]; simp
      · exact absurd (Or.inl rfl) hf
    · rw [getLabel_cons_ne _ _ _ _ hk]
  have e2 : (if getLabel ((key, s) :: labels) labelAutoScaleMem ≠ "" then
        L.ParseFloat (getLabel ((key, s) :: labels) labelAutoScaleMem) else .ok L.zero) =
      (if getLabel labels labelAutoScaleMem ≠ "" then
        L.ParseFloat (getLabel labels labelAutoScaleMem) else .ok L.zero) := by
    by_cases hk : key = labelAutoScaleMem
    · subst hk
      rcases hf with hf | hf
      · rw [getLabel_cons_self, getLabel_absent _ _ habs, hf]; simp
      · exact absurd (Or.inr rfl) hf
    · rw [getLabel_cons_ne _ _ _ _ hk]
  have e3 : (if getLabel ((key, s) :: labels) labelAutoScaleMin ≠ "" then
        L.ParseInt (getLabel ((key, s) :: labels) labelAutoScaleMin) else .ok 0) =
      (if getLabel labels labelAutoScaleMin ≠ "" then
        L.ParseInt (getLabel labels labelAutoScaleMin) else .ok 0) := by
    by_cases hk : key = labelAutoScaleMin
    · subst hk
      rcases hi with hi | hi
      · rw [getLabel_cons_self, getLabel_absent _ _ habs, hi]; simp
      · exact absurd (Or.inl rfl) hi
    · rw [getLabel_cons_ne _ _ _ _ hk]
  have e4 : (if getLabel ((key, s) :: labels) labelAutoScaleMax ≠ "" then
        L.ParseInt (getLabel ((key, s) :: labels) labelAutoScaleMax) else .ok 0) =
      (if getLabel labels labelAutoScaleMax ≠ "" then
        L.ParseInt (getLabel labels labelAutoScaleMax) else .ok 0) := by
    by_cases hk : key = labelAutoScaleMax
    · subst hk
      rcases hi with hi | hi
      · rw [getLabel_cons_self, getLabel_absent _ _ habs, hi]; simp
      · exact absurd (Or.inr rfl) hi
    · rw [getLabel_cons_ne _ _ _ _ hk]
  unfold basedStats
  simp only [e1, e2, e3, e4]

/-! ## Malformed policy labels (C4) -/

/-- C4, as the code has it. When a policy label holds a non-empty text that
its parser rejects, policy extraction fails with the message of a malformed
field; in no cycle does the service get a container; its iteration does not
fault on the replica count, returns only the error of a failed stats
collection, and faults on the status only when the service has none; and once
the metrics of the service are parsed its outcome is that logged error, after
which the loop continues. -/
theorem malformed_policy_skips_service {F : Type} (L : Lib F) (N : Net F) (svc : Service)
    (hbad : malformedPolicy L svc.Labels) :
    (∃ msg e, basedStats L svc.Labels = .error (msg, e) ∧ blames L svc.Labels msg e) ∧
    (∀ (strikes : Nat → Bool) (pre post : List Service) (exec : Nat → Except String String)
      (o : Outcome F),
      (watchServices L N strikes (.ok (pre ++ svc :: post)) exec).outcomes[pre.length]? = some o →
      (∀ c r, o ≠ .dispatched c r) ∧ o ≠ .nilDeref ∧
      (∀ e, o = .returned e → ∃ k, watchStats L (exec k) = .error e) ∧
      (o = .nilStatus → svc.ServiceStatus = none)) ∧
    (∀ (m : StatsMap) (st : Stats) (cpu mem : F), m.get svc.Name = some st →
      L.ParseFloat (ReplaceAll st.CPU '%' "") = .ok cpu →
      L.ParseFloat (ReplaceAll st.Memory.Percent '%' "") = .ok mem →
      ∃ msg e, correlate L N m svc = .logError msg e ∧ blames L svc.Labels msg e) := by
  obtain ⟨msg, e, hb⟩ := basedStats_malformed L svc.Labels hbad
  refine ⟨⟨msg, e, hb, basedStats_error_blames L _ _ _ hb⟩, ?_, ?_⟩
  · intro strikes pre post exec o ho
    obtain ⟨svc', hs, hk⟩ :=
      watchLoop_get L N strikes exec (pre ++ svc :: post) 0 0 pre.length false o ho
    generalize 0 + running ((pre ++ svc :: post).take pre.length) = k at hk
    have hsvc : svc' = svc := by
      rw [List.getElem?_append_right (Nat.le_refl _), Nat.sub_self] at hs
      simpa using hs.symm
    subst hsvc
    refine ⟨?_, ?_, ?_, ?_⟩
    · intro c r hd
      have hsig : (loopBody L N exec k svc').1.signal = some c := by
        rw [← hk, hd]; rfl
      obtain ⟨-, m, -, hc⟩ := loopBody_signal L N exec k svc' c hsig
      obtain ⟨_, _, _, _, _, -, -, -, -, -, -, hd'⟩ := correlate_signal L N m svc' c hc
      exact (correlate_of_policy_error L N m svc' msg e hb).1 _ _ hd'
    · intro hn
      rcases service_cases svc' with h0 | ⟨status, hst, hz⟩ | hrun
      · rw [hk, loopBody_noStatus L N exec k svc' h0] at hn
        cases hn
      · rw [hk, loopBody_idle L N exec k svc' status hst hz] at hn
        cases hn
      · rw [hk, loopBody_running L N exec k svc' hrun] at hn
        cases hw : watchStats L (exec k) with
        | error e' => rw [hw] at hn; cases hn
        | ok m =>
          rw [hw] at hn
          have h2 := (correlate_of_policy_error L N m svc' msg e hb).2
          simp only at hn
          rw [hn] at h2
          cases h2
    · intro e' he
      exact ⟨k, loopBody_returned L N exec k svc' e' (by rw [← hk, he])⟩
    · intro hn
      exact loopBody_nilStatus L N exec k svc' (by rw [← hk, hn])
  · intro m st cpu mem hg hc hm
    refine ⟨msg, e, ?_, basedStats_error_blames L _ _ _ hb⟩
    simp [correlate, hg, hc, hm, hb]

set_option maxRecDepth 100000 in
/-- Witness for C4: the CPU label holds the text `high`. -/
theorem malformed_policy_skips_service_witness :
    ∃ msg e, basedStats decimalLib dbBadService.Labels = .error (msg, e) ∧
      blames decimalLib dbBadService.Labels msg e :=
  (malformed_policy_skips_service decimalLib (netAnswering ok200) dbBadService
    ⟨"parse based cpu percentage", "invalid syntax", Or.inl ⟨rfl, by decide, by decide⟩⟩).1

set_option maxRecDepth 100000 in
/-- Counterexample to C4: the CPU label is present and holds the empty text,
which is no number; policy extraction succeeds and the container is dispatched
with a CPU target of zero. -/
theorem empty_label_is_not_an_error :
    lookupLabel dbEmptyService.Labels labelAutoScaleCPU = some "" ∧
    decimalLib.ParseFloat "" = .error "invalid syntax" ∧
    (watchServices decimalLib (netAnswering ok200) (fun _ => false) (.ok [dbEmptyService])
        (fun _ => .ok threeRecords)).outcomes =
      [.dispatched
        { ServiceID := "svc-db", ServiceName := "db",
          Current := { CPUPercentage := ⟨5, 1⟩, MemoryPercentage := ⟨12, 1⟩, Replicas := 1 },
          Based := { CPUPercentage := ⟨0, 0⟩, MemoryPercentage := ⟨0, 0⟩, Min := 0, Max := 0 } }
        .nil] := by
  decide

/-! ## Absent labels and zero (C5) -/

/-- C5, as the code has it. An absent policy label is reported as zero:
adding, to a service that lacks one of the four policy labels, that label with
a text that parses to zero changes no outcome of any cycle. -/
theorem absent_label_same_as_zero {F : Type} (L : Lib F) (N : Net F) (strikes : Nat → Bool)
    (svc : Service) (key s : String)
    (pre post : List Service) (exec : Nat → Except String String)
    (habs : lookupLabel svc.Labels key = none)
    (hz : ((key = labelAutoScaleCPU ∨ key = labelAutoScaleMem) ∧ L.ParseFloat s = .ok L.zero) ∨
      ((key = labelAutoScaleMin ∨ key = labelAutoScaleMax) ∧ L.ParseInt s = .ok 0)) :
    (watchServices L N strikes
        (.ok (pre ++ { svc with Labels := (key, s) :: svc.Labels } :: post)) exec).outcomes =
      (watchServices L N strikes (.ok (pre ++ svc :: post)) exec).outcomes := by
  have hb := basedStats_absent_zero L svc.Labels key s habs hz
  have hbody : ∀ k, loopBody L N exec k { svc with Labels := (key, s) :: svc.Labels } =
      loopBody L N exec k svc := by
    intro k
    simp only [loopBody, correlate, hb]
  simp only [watchServices]
  rw [watchLoop_congr_at L N strikes exec pre post svc _ 0 0 false hbody]

set_option maxRecDepth 100000 in
/-- Witness for C5: the `db` service, and the same service with the CPU label `0`. -/
theorem absent_label_same_as_zero_witness :
    (watchServices decimalLib (netAnswering ok200) (fun _ => false)
        (.ok ([] ++ { dbService with
          Labels := (labelAutoScaleCPU, "0") :: dbService.Labels } :: []))
        (fun _ => .ok threeRecords)).outcomes =
      (watchServices decimalLib (netAnswering ok200) (fun _ => false)
        (.ok ([] ++ dbService :: [])) (fun _ => .ok threeRecords)).outcomes :=
  absent_label_same_as_zero decimalLib (netAnswering ok200) (fun _ => false) dbService
    labelAutoScaleCPU "0" [] [] (fun _ => .ok threeRecords) (by decide)
    (Or.inl ⟨Or.inl rfl, by decide⟩)

set_option maxRecDepth 100000 in
/-- Counterexample to C5: `db` without a CPU label and `db` with the CPU label
`0` are dispatched the same container, with a CPU target of zero. -/
theorem missing_label_reported_as_zero :
    lookupLabel dbService.Labels labelAutoScaleCPU = none ∧
    lookupLabel dbZeroService.Labels labelAutoScaleCPU = some "0" ∧
    (watchServices decimalLib (netAnswering ok200) (fun _ => false) (.ok [dbService])
        (fun _ => .ok threeRecords)).signals =
      (watchServices decimalLib (netAnswering ok200) (fun _ => false) (.ok [dbZeroService])
        (fun _ => .ok threeRecords)).signals ∧
    (watchServices decimalLib (netAnswering ok200) (fun _ => false) (.ok [dbService])
        (fun _ => .ok threeRecords)).signals =
      [{ ServiceID := "svc-db", ServiceName := "db",
         Current := { CPUPercentage := ⟨5, 1⟩, MemoryPercentage := ⟨12, 1⟩, Replicas := 1 },
         Based := { CPUPercentage := ⟨0, 0⟩, MemoryPercentage := ⟨0, 0⟩, Min := 0, Max := 0 } }] := by
  decide

/-! ## The metric texts (C10) -/

theorem flatMap_percent_free (l : List Char) (h : '%' ∉ l) :
    (l.flatMap fun x => if x = '%' then "".data else [x]) = l := by
  induction l with
  | nil => rfl
  | cons a l ih =>
    have ha : a ≠ '%' := fun h' => h (h' ▸ List.mem_cons_self _ _)
    have hl : '%' ∉ l := fun h' => h (List.mem_cons_of_mem _ h')
    simp [List.flatMap_cons, ha, ih hl]

theorem ReplaceAll_eq_TrimSuffixPercent (s : String) (h : '%' ∉ s.data.dropLast) :
    ReplaceAll s '%' "" = TrimSuffixPercent s := by
  obtain ⟨l⟩ := s
  simp only at h
  unfold ReplaceAll TrimSuffixPercent
  simp only
  rcases List.eq_nil_or_concat l with rfl | ⟨init, last, rfl⟩
  · simp
  · simp only [List.concat_eq_append] at h ⊢
    rw [List.dropLast_concat] at h
    rw [List.flatMap_append, flatMap_percent_free init h]
    by_cases hl : last = '%'
    · subst hl
      simp
    · have h1 : (init ++ [last]).getLast? ≠ some '%' := by
        simp [List.getLast?_append, hl]
      simp [hl]

/-- C10, as the code has it. For a service with a stats entry: the CPU and
memory values of a dispatched container are the parse of the CPU and memory
texts with every percent sign removed; the service is skipped with the CPU
message exactly when that parse of the CPU text fails, and with the memory
message exactly when the CPU parse succeeds and the memory parse fails; and
removing every percent sign is stripping a trailing one when the text has no
other. -/
theorem correlate_metrics {F : Type} (L : Lib F) (N : Net F) (m : StatsMap) (svc : Service)
    (st : Stats) (hget : m.get svc.Name = some st) :
    (∀ c r, correlate L N m svc = .dispatched c r →
      L.ParseFloat (ReplaceAll st.CPU '%' "") = .ok c.Current.CPUPercentage ∧
      L.ParseFloat (ReplaceAll st.Memory.Percent '%' "") = .ok c.Current.MemoryPercentage) ∧
    (∀ e, correlate L N m svc = .logError "parse cpu percentage" e ↔
      L.ParseFloat (ReplaceAll st.CPU '%' "") = .error e) ∧
    (∀ e, correlate L N m svc = .logError "parse memory percentage" e ↔
      (∃ v, L.ParseFloat (ReplaceAll st.CPU '%' "") = .ok v) ∧
      L.ParseFloat (ReplaceAll st.Memory.Percent '%' "") = .error e) ∧
    (∀ s : String, '%' ∉ s.data.dropLast → ReplaceAll s '%' "" = TrimSuffixPercent s) := by
  refine ⟨?_, ?_, ?_, ReplaceAll_eq_TrimSuffixPercent⟩
  · intro c r hc
    have hsig : (correlate L N m svc).signal = some c := by rw [hc]; rfl
    obtain ⟨st', cpu, mem, based, rep, hg, h1, h2, -, -, rfl, -⟩ :=
      correlate_signal L N m svc c hsig
    rw [hget] at hg
    cases hg
    exact ⟨h1, h2⟩
  · intro e
    cases hc : L.ParseFloat (ReplaceAll st.CPU '%' "") with
    | error e1 => simp [correlate, hget, hc]
    | ok cpu =>
      cases hm : L.ParseFloat (ReplaceAll st.Memory.Percent '%' "") with
      | error e2 => simp [correlate, hget, hc, hm]
      | ok mem =>
        cases hb : basedStats L svc.Labels with
        | error p =>
          obtain ⟨msg, e'⟩ := p
          have := (blames_msg L _ _ _ (basedStats_error_blames L _ _ _ hb)).1
          simp [correlate, hget, hc, hm, hb, this]
        | ok based =>
          cases hr : svc.Replicas <;> simp [correlate, hget, hc, hm, hb, hr]
  · intro e
    cases hc : L.ParseFloat (ReplaceAll st.CPU '%' "") with
    | error e1 => simp [correlate, hget, hc]
    | ok cpu =>
      cases hm : L.ParseFloat (ReplaceAll st.Memory.Percent '%' "") with
      | error e2 => simp [correlate, hget, hc, hm]
      | ok mem =>
        cases hb : basedStats L svc.Labels with
        | error p =>
          obtain ⟨msg, e'⟩ := p
          have := (blames_msg L _ _ _ (basedStats_error_blames L _ _ _ hb)).2
          simp [correlate, hget, hc, hm, hb, this]
        | ok based =>
          cases hr : svc.Replicas <;> simp [correlate, hget, hc, hm, hb, hr]

set_option maxRecDepth 100000 in
/-- Witness for C10: the `api` entry of the first scenario; the dispatched
values are the parses of `45.2` and `30.1`. -/
theorem correlate_metrics_witness :
    decimalLib.ParseFloat (ReplaceAll apiRecord.CPU '%' "") =
        .ok apiSignal.Current.CPUPercentage ∧
    decimalLib.ParseFloat (ReplaceAll apiRecord.Memory.Percent '%' "") =
        .ok apiSignal.Current.MemoryPercentage :=
  (correlate_metrics decimalLib (netAnswering ok200) [("api", apiRecord)] apiService apiRecord
    (by decide)).1 apiSignal .nil (by decide)

set_option maxRecDepth 100000 in
/-- Counterexample to C10: the CPU text `4%5` and the memory text `%12`.
Stripping a trailing percent sign leaves them unchanged and they do not parse;
the code removes the signs, parses `45` and `12`, and dispatches the container
with these values. -/
theorem inner_percent_is_parsed :
    (records decimalLib oddStats).map (fun s => (s.CPU, s.Memory.Percent)) = [("4%5", "%12")] ∧
    trimmedMetric decimalLib "4%5" = .error "invalid syntax" ∧
    trimmedMetric decimalLib "%12" = .error "invalid syntax" ∧
    (watchServices decimalLib (netAnswering ok200) (fun _ => false) (.ok [apiService])
        (fun _ => .ok oddStats)).outcomes =
      [.dispatched { apiSignal with
        Current := { CPUPercentage := ⟨45, 0⟩, MemoryPercentage := ⟨12, 0⟩, Replicas := 3 } }
        .nil] := by
  decide

end AgentAutoscale
